import Mathlib

/-!
# DLL layer contract: a shallow embedding

The layer sources (`dyn_patches_layer.inl`, `layer_traits.hpp`, `deconv_layer.inl`,
`dyn_conv_rbm.inl`, `dyn_dense_layer.inl`, `dyn_upsample_layer.inl`, `avgp_layer.inl`,
`rectifier_layer.inl`) and the descriptors (`dyn_conv_desc.hpp`,
`dyn_patches_layer_desc.hpp`, `augment_layer_desc.hpp`) are embedded as Lean definitions.

Conventions.
* `std::size_t` values are natural numbers below `2 ^ 64`; the sums, differences and
  products that `dyn_patches_layer`, `deconv_layer`, `dyn_conv_rbm` and the `parameters()`
  methods compute on them are the 64-bit unsigned operations `size_add`, `size_sub` and
  `size_mul`, which wrap, and so is the element count `etl_size` of a tensor.
* ETL tensors are a shape together with an element function on indices; only
  the elements inside the shape are meaningful, and an element access outside the
  shape is the error `out_of_bounds`.
* A `for` loop whose trip count depends on the data takes a fuel argument and
  reports `out_of_fuel` when it is exhausted.
-/

namespace dll

/-! ## Sizes -/

/-- Number of values of a 64-bit `std::size_t`. -/
def SIZE_MOD : Nat := 2 ^ 64

/-- Unsigned subtraction `a - b` of two `std::size_t` values. -/
def size_sub (a b : Nat) : Nat := (a % SIZE_MOD + (SIZE_MOD - b % SIZE_MOD)) % SIZE_MOD

/-- Unsigned addition `a + b` of two `std::size_t` values. -/
def size_add (a b : Nat) : Nat := (a + b) % SIZE_MOD

/-- Unsigned product `a * b` of two `std::size_t` values. -/
def size_mul (a b : Nat) : Nat := (a * b) % SIZE_MOD

/-- Element count of an ETL container of the given extents: the product of the extents, which
ETL computes in `std::size_t`. -/
def etl_size (dims : List Nat) : Nat := dims.prod % SIZE_MOD

/-- Outcome of a call that does not return normally: a failed `cpp_assert`, a loop that does
not end, or an element access outside the extents of a tensor. -/
inductive call_error where
  | assertion_failed
  | out_of_fuel
  | out_of_bounds
deriving DecidableEq

/-- Loop `for (i = ...; i < n; ++i) body` over the indices listed, stopping at the first
error of the body. -/
def counted_loop {σ : Type} (body : σ → Nat → Except call_error σ) :
    List Nat → σ → Except call_error σ
  | [], s => .ok s
  | i :: rest, s =>
    match body s i with
    | .ok s1 => counted_loop body rest s1
    | .error e => .error e

/-- Call `v.clear()` on a `std::vector`: every element is removed. -/
def vector_clear {β : Type} (_v : List β) : List β := []

/-! ## ETL tensors of rank 3 -/

/-- Model of `etl::dyn_matrix<weight, 3>`: three extents and the elements. -/
structure dyn_matrix3 (α : Type) where
  dim0 : Nat
  dim1 : Nat
  dim2 : Nat
  val : Nat → Nat → Nat → α

namespace dyn_matrix3

variable {α : Type}

/-- Fresh tensor `etl::dyn_matrix<weight, 3>(d0, d1, d2)`. -/
def create [Inhabited α] (d0 d1 d2 : Nat) : dyn_matrix3 α :=
  { dim0 := d0, dim1 := d1, dim2 := d2, val := fun _ _ _ => default }

/-- Assignment `m(c, y, x) = v`. -/
def set (m : dyn_matrix3 α) (c y x : Nat) (v : α) : dyn_matrix3 α :=
  { m with val := fun c1 y1 x1 => if c1 = c ∧ y1 = y ∧ x1 = x then v else m.val c1 y1 x1 }

/-- Element count `etl::size(m)`. -/
def size (m : dyn_matrix3 α) : Nat := etl_size [m.dim0, m.dim1, m.dim2]

/-- Element access `m(c, y, x)` for reading: an index outside the extents is an error. -/
def read (m : dyn_matrix3 α) (c y x : Nat) : Except call_error α :=
  if c < m.dim0 ∧ y < m.dim1 ∧ x < m.dim2 then .ok (m.val c y x) else .error .out_of_bounds

end dyn_matrix3

/-! ## dyn_patches_layer -/

/-- Runtime fields of `dyn_patches_layer`. -/
structure dyn_patches_layer where
  width : Nat
  height : Nat
  v_stride : Nat
  h_stride : Nat
deriving DecidableEq

namespace dyn_patches_layer

variable {α : Type}

/-- Method `init_layer(width, height, v_stride, h_stride)`. -/
def init_layer (l : dyn_patches_layer) (width height v_stride h_stride : Nat) :
    dyn_patches_layer :=
  { l with width := width, height := height, v_stride := v_stride, h_stride := h_stride }

/-- Method `output_size()`. -/
def output_size (l : dyn_patches_layer) : Nat := size_mul l.width l.height

/-- Method `prepare_one_output()`: an empty `std::vector` of tensors. -/
def prepare_one_output (_l : dyn_patches_layer) : List (dyn_matrix3 α) := []

/-- Total number of scalars held by an `output_one_t` (a vector of tensors). -/
def output_one_size (h_a : List (dyn_matrix3 α)) : Nat := (h_a.map dyn_matrix3.size).sum

/-- Innermost loop `for xx < width: patch(0, yy, xx) = input(0, y + yy, x + xx)`. -/
def fill_row (l : dyn_patches_layer) (input : dyn_matrix3 α) (y x : Nat)
    (patch : dyn_matrix3 α) (yy : Nat) : Except call_error (dyn_matrix3 α) :=
  counted_loop
    (fun p xx =>
      match input.read 0 (size_add y yy) (size_add x xx) with
      | .ok v => .ok (p.set 0 yy xx v)
      | .error e => .error e)
    (List.range l.width) patch

/-- Body of the two position loops: the new patch for the window at `(y, x)`, filled by the
loops over `yy < height` and `xx < width`. -/
def make_patch [Inhabited α] (l : dyn_patches_layer) (input : dyn_matrix3 α) (y x : Nat) :
    Except call_error (dyn_matrix3 α) :=
  counted_loop (fun p yy => fill_row l input y x p yy) (List.range l.height)
    (dyn_matrix3.create 1 l.height l.width)

/-- Loop `for (x = ...; x + width <= dim<2>(input); x += h_stride)` at row offset `y`. -/
def col_loop [Inhabited α] (l : dyn_patches_layer) (input : dyn_matrix3 α) (y : Nat) :
    Nat → Nat → List (dyn_matrix3 α) → Except call_error (List (dyn_matrix3 α))
  | 0, _, _ => .error .out_of_fuel
  | fuel + 1, x, h_a =>
    if size_add x l.width ≤ input.dim2 then
      match make_patch l input y x with
      | .error e => .error e
      | .ok patch => col_loop l input y fuel (size_add x l.h_stride) (h_a ++ [patch])
    else .ok h_a

/-- Loop `for (y = ...; y + height <= dim<1>(input); y += v_stride)`. -/
def row_loop [Inhabited α] (l : dyn_patches_layer) (input : dyn_matrix3 α) (colFuel : Nat) :
    Nat → Nat → List (dyn_matrix3 α) → Except call_error (List (dyn_matrix3 α))
  | 0, _, _ => .error .out_of_fuel
  | fuel + 1, y, h_a =>
    if size_add y l.height ≤ input.dim1 then
      match col_loop l input y colFuel 0 h_a with
      | .error e => .error e
      | .ok h_a1 => row_loop l input colFuel fuel (size_add y l.v_stride) h_a1
    else .ok h_a

/-- Method `activate_hidden(h_a, input)`; the result is the new content of `h_a`. -/
def activate_hidden [Inhabited α] (l : dyn_patches_layer) (fuel : Nat)
    (h_a : List (dyn_matrix3 α)) (input : dyn_matrix3 α) :
    Except call_error (List (dyn_matrix3 α)) :=
  if input.dim0 = 1 then
    row_loop l input fuel fuel 0 (vector_clear h_a)
  else .error .assertion_failed

/-- Content of one row of a window: the result of `fill_row` when every read is in range. -/
def window_row (l : dyn_patches_layer) (input : dyn_matrix3 α) (y x : Nat)
    (patch : dyn_matrix3 α) (yy : Nat) : dyn_matrix3 α :=
  (List.range l.width).foldl
    (fun p xx => p.set 0 yy xx (input.val 0 (y + yy) (x + xx))) patch

/-- Window of the input at `(y, x)` as a `1 x height x width` tensor: the result of
`make_patch` when every read is in range. -/
def window [Inhabited α] (l : dyn_patches_layer) (input : dyn_matrix3 α) (y x : Nat) :
    dyn_matrix3 α :=
  (List.range l.height).foldl (fun p yy => window_row l input y x p yy)
    (dyn_matrix3.create 1 l.height l.width)

/-- Number of loop positions `p, p + stride, ...` with `p + size <= extent`, from `p = start`. -/
def positions_from (extent size stride start : Nat) : Nat :=
  if start + size ≤ extent then (extent - size - start) / stride + 1 else 0

/-- Number of window positions along one axis. -/
def positions (extent size stride : Nat) : Nat := positions_from extent size stride 0

/-- Windows at all positions, row by row, in the order the two loops visit them. -/
def patches [Inhabited α] (l : dyn_patches_layer) (input : dyn_matrix3 α) :
    List (dyn_matrix3 α) :=
  (List.range (positions input.dim1 l.height l.v_stride)).flatMap fun r =>
    (List.range (positions input.dim2 l.width l.h_stride)).map fun c =>
      window l input (r * l.v_stride) (c * l.h_stride)

end dyn_patches_layer

/-! ## layer_traits -/

/-- Flags of a `layer_base_traits<Layer>` specialisation. -/
structure layer_base_traits where
  is_neural : Bool
  is_dense : Bool
  is_conv : Bool
  is_deconv : Bool
  is_standard : Bool
  is_rbm : Bool
  is_pooling : Bool
  is_unpooling : Bool
  is_transform : Bool
  is_patches : Bool
  is_augment : Bool
  is_dynamic : Bool
  pretrain_last : Bool
  sgd_supported : Bool
deriving DecidableEq

/-- Specialisation `layer_base_traits<dyn_patches_layer<Desc>>`. -/
def dyn_patches_layer.base_traits : layer_base_traits :=
  { is_neural := false, is_dense := false, is_conv := false, is_deconv := false,
    is_standard := false, is_rbm := false, is_pooling := false, is_unpooling := false,
    is_transform := false, is_patches := true, is_augment := false, is_dynamic := true,
    pretrain_last := false, sgd_supported := true }

namespace layer_traits

/-- Query `layer_traits::is_neural_layer()`. -/
def is_neural_layer (t : layer_base_traits) : Bool := t.is_neural

/-- Query `layer_traits::is_dense_layer()`. -/
def is_dense_layer (t : layer_base_traits) : Bool := t.is_dense

/-- Query `layer_traits::is_convolutional_layer()`. -/
def is_convolutional_layer (t : layer_base_traits) : Bool := t.is_conv

/-- Query `layer_traits::is_deconvolutional_layer()`. -/
def is_deconvolutional_layer (t : layer_base_traits) : Bool := t.is_deconv

/-- Query `layer_traits::is_standard_layer()`. -/
def is_standard_layer (t : layer_base_traits) : Bool := t.is_standard

/-- Query `layer_traits::is_standard_dense_layer()`. -/
def is_standard_dense_layer (t : layer_base_traits) : Bool :=
  is_standard_layer t && is_dense_layer t

/-- Query `layer_traits::is_standard_convolutional_layer()`. -/
def is_standard_convolutional_layer (t : layer_base_traits) : Bool :=
  is_standard_layer t && is_convolutional_layer t

/-- Query `layer_traits::is_standard_deconvolutional_layer()`. -/
def is_standard_deconvolutional_layer (t : layer_base_traits) : Bool :=
  is_standard_layer t && is_deconvolutional_layer t

/-- Query `layer_traits::is_rbm_layer()`. -/
def is_rbm_layer (t : layer_base_traits) : Bool := t.is_rbm

/-- Query `layer_traits::is_dense_rbm_layer()`. -/
def is_dense_rbm_layer (t : layer_base_traits) : Bool := is_rbm_layer t && is_dense_layer t

/-- Query `layer_traits::is_convolutional_rbm_layer()`. -/
def is_convolutional_rbm_layer (t : layer_base_traits) : Bool :=
  is_rbm_layer t && is_convolutional_layer t

/-- Query `layer_traits::is_pooling_layer()`. -/
def is_pooling_layer (t : layer_base_traits) : Bool := t.is_pooling

/-- Query `layer_traits::is_unpooling_layer()`. -/
def is_unpooling_layer (t : layer_base_traits) : Bool := t.is_unpooling

/-- Query `layer_traits::is_transform_layer()`. -/
def is_transform_layer (t : layer_base_traits) : Bool := t.is_transform

/-- Query `layer_traits::is_patches_layer()`. -/
def is_patches_layer (t : layer_base_traits) : Bool := t.is_patches

/-- Query `layer_traits::is_augment_layer()`. -/
def is_augment_layer (t : layer_base_traits) : Bool := t.is_augment

/-- Query `layer_traits::is_multiplex_layer()`. -/
def is_multiplex_layer (t : layer_base_traits) : Bool := is_augment_layer t || is_patches_layer t

/-- Query `layer_traits::has_same_type()`. -/
def has_same_type (t : layer_base_traits) : Bool := is_transform_layer t || is_augment_layer t

/-- Query `layer_traits::is_trained()`. -/
def is_trained (t : layer_base_traits) : Bool := is_neural_layer t

/-- Query `layer_traits::is_pretrained()`. -/
def is_pretrained (t : layer_base_traits) : Bool := is_rbm_layer t

/-- Query `layer_traits::is_dynamic()`. -/
def is_dynamic (t : layer_base_traits) : Bool := t.is_dynamic

/-- Query `layer_traits::pretrain_last()`. -/
def pretrain_last (t : layer_base_traits) : Bool := t.pretrain_last

end layer_traits

/-! ## Activation functions -/

/-- Modelled from the spec: the enumeration `dll::function` is declared in `base_conf.hpp`,
which is not among the sources.  The values are the activation kinds the sources and the
spec name: identity, logistic sigmoid, tanh, rectified-linear and softmax. -/
inductive function where
  | IDENTITY
  | SIGMOID
  | TANH
  | RELU
  | SOFTMAX
deriving DecidableEq

/-! ## ETL tensors of rank 1 and 2 -/

/-- Model of `etl::dyn_matrix<weight, 1>`: the extent and the elements. -/
structure dyn_matrix1 (α : Type) where
  dim0 : Nat
  val : Nat → α

/-- Model of `etl::dyn_matrix<weight, 2>`: two extents and the elements. -/
structure dyn_matrix2 (α : Type) where
  dim0 : Nat
  dim1 : Nat
  val : Nat → Nat → α

namespace dyn_matrix1

variable {α : Type}

/-- Fresh vector `etl::dyn_matrix<weight, 1>(d0)`. -/
def create [Inhabited α] (d0 : Nat) : dyn_matrix1 α := { dim0 := d0, val := fun _ => default }

/-- Element count `etl::size(v)`. -/
def size (v : dyn_matrix1 α) : Nat := etl_size [v.dim0]

/-- Elementwise sum `a + b` of two vectors. -/
def add [Add α] (a b : dyn_matrix1 α) : dyn_matrix1 α :=
  { dim0 := a.dim0, val := fun j => a.val j + b.val j }

/-- Elementwise application of a scalar function. -/
def map (f : α → α) (a : dyn_matrix1 α) : dyn_matrix1 α :=
  { dim0 := a.dim0, val := fun j => f (a.val j) }

/-- Expression `etl::rep_l(b, n)`: the matrix whose `n` rows all equal `b`. -/
def rep_l (b : dyn_matrix1 α) (n : Nat) : dyn_matrix2 α :=
  { dim0 := n, dim1 := b.dim0, val := fun _ j => b.val j }

/-- Vector-matrix product `v * w`. -/
def mul [Semiring α] (v : dyn_matrix1 α) (w : dyn_matrix2 α) : dyn_matrix1 α :=
  { dim0 := w.dim1, val := fun j => (Finset.range v.dim0).sum fun k => v.val k * w.val k j }

end dyn_matrix1

namespace dyn_matrix2

variable {α : Type}

/-- Element count `etl::size(m)`. -/
def size (m : dyn_matrix2 α) : Nat := etl_size [m.dim0, m.dim1]

/-- Sub-expression `m(i)`: row `i` as a vector. -/
def row (m : dyn_matrix2 α) (i : Nat) : dyn_matrix1 α :=
  { dim0 := m.dim1, val := fun j => m.val i j }

/-- Assignment `m(i) = v` of a whole row. -/
def set_row (m : dyn_matrix2 α) (i : Nat) (v : dyn_matrix1 α) : dyn_matrix2 α :=
  { m with val := fun i1 j => if i1 = i then v.val j else m.val i1 j }

/-- Elementwise sum `a + b` of two matrices. -/
def add [Add α] (a b : dyn_matrix2 α) : dyn_matrix2 α :=
  { dim0 := a.dim0, dim1 := a.dim1, val := fun i j => a.val i j + b.val i j }

/-- Elementwise application of a scalar function. -/
def map (f : α → α) (a : dyn_matrix2 α) : dyn_matrix2 α :=
  { dim0 := a.dim0, dim1 := a.dim1, val := fun i j => f (a.val i j) }

/-- Expression `etl::transpose(m)`. -/
def transpose (m : dyn_matrix2 α) : dyn_matrix2 α :=
  { dim0 := m.dim1, dim1 := m.dim0, val := fun i j => m.val j i }

/-- Matrix product `a * b`. -/
def mul [Semiring α] (a b : dyn_matrix2 α) : dyn_matrix2 α :=
  { dim0 := a.dim0, dim1 := b.dim1,
    val := fun i j => (Finset.range a.dim1).sum fun k => a.val i k * b.val k j }

/-- Sum over all positions of the elementwise product of two matrices of the extents of `a`. -/
def dot [Semiring α] (a b : dyn_matrix2 α) : α :=
  (Finset.range a.dim0).sum fun i => (Finset.range a.dim1).sum fun j => a.val i j * b.val i j

end dyn_matrix2

/-- Scalar activations and the softmax of the numeric backend, which the sources call
through `f_activate<F>(expr)`.  Every function but SOFTMAX acts element by element;
SOFTMAX normalises over the whole expression it is given. -/
structure activation_backend (α : Type) where
  scalar : function → α → α
  softmax1 : dyn_matrix1 α → dyn_matrix1 α
  softmax2 : dyn_matrix2 α → dyn_matrix2 α

/-- Call `f_activate<F>(expr)` on a rank-1 expression. -/
def f_activate1 {α : Type} (be : activation_backend α) (F : function) (e : dyn_matrix1 α) :
    dyn_matrix1 α :=
  if F = function.SOFTMAX then be.softmax1 e else e.map (be.scalar F)

/-- Call `f_activate<F>(expr)` on a rank-2 expression. -/
def f_activate2 {α : Type} (be : activation_backend α) (F : function) (e : dyn_matrix2 α) :
    dyn_matrix2 α :=
  if F = function.SOFTMAX then be.softmax2 e else e.map (be.scalar F)

/-! ## deconv_layer -/

/-- Constants a `deconv_layer` reads from its descriptor `Desc`. -/
structure deconv_desc where
  NC : Nat
  NV1 : Nat
  NV2 : Nat
  K : Nat
  NW1 : Nat
  NW2 : Nat
  activation_function : function
deriving DecidableEq

namespace deconv_layer

/-- Constant `NH1 = NV1 + NW1 - 1`. -/
def NH1 (d : deconv_desc) : Nat := size_sub (size_add d.NV1 d.NW1) 1

/-- Constant `NH2 = NV2 + NW2 - 1`. -/
def NH2 (d : deconv_desc) : Nat := size_sub (size_add d.NV2 d.NW2) 1

/-- Method `input_size()`. -/
def input_size (d : deconv_desc) : Nat := size_mul (size_mul d.NC d.NV1) d.NV2

/-- Method `output_size()`. -/
def output_size (d : deconv_desc) : Nat := size_mul (size_mul d.K (NH1 d)) (NH2 d)

/-- Method `parameters()`. -/
def parameters (d : deconv_desc) : Nat := size_mul (size_mul d.K d.NW1) d.NW2

/-- Method `prepare_one_output()`: a value-initialised `fast_dyn_matrix<weight, K, NH1, NH2>`. -/
def prepare_one_output {α : Type} [Inhabited α] (d : deconv_desc) : dyn_matrix3 α :=
  dyn_matrix3.create d.K (NH1 d) (NH2 d)

/-- Specialisation `layer_base_traits<deconv_layer<Desc>>`. -/
def base_traits : layer_base_traits :=
  { is_neural := true, is_dense := false, is_conv := false, is_deconv := true,
    is_standard := true, is_rbm := false, is_pooling := false, is_unpooling := false,
    is_transform := false, is_patches := false, is_augment := false, is_dynamic := false,
    pretrain_last := false, sgd_supported := true }

end deconv_layer

/-! ## dyn_conv_rbm -/

/-- Runtime fields of `dyn_conv_rbm`.  The owned tensors are kept as their extents; their
contents after `init_layer` are random. -/
structure dyn_conv_rbm where
  w : List Nat
  b : List Nat
  c : List Nat
  v1 : List Nat
  h1_a : List Nat
  h1_s : List Nat
  v2_a : List Nat
  v2_s : List Nat
  h2_a : List Nat
  h2_s : List Nat
  nv1 : Nat
  nv2 : Nat
  nh1 : Nat
  nh2 : Nat
  nc : Nat
  k : Nat
  nw1 : Nat
  nw2 : Nat
  batch_size : Nat
deriving DecidableEq

namespace dyn_conv_rbm

/-- Method `init_layer(nc, nv1, nv2, k, nw1, nw2)`. -/
def init_layer (l : dyn_conv_rbm) (nc nv1 nv2 k nw1 nw2 : Nat) : dyn_conv_rbm :=
  let nh1 := size_add (size_sub nv1 nw1) 1
  let nh2 := size_add (size_sub nv2 nw2) 1
  { l with
    nv1 := nv1, nv2 := nv2, nw1 := nw1, nw2 := nw2, nc := nc, k := k,
    nh1 := nh1, nh2 := nh2,
    w := [k, nc, nw1, nw2],
    b := [k],
    c := [nc],
    v1 := [nc, nv1, nv2],
    h1_a := [k, nh1, nh2],
    h1_s := [k, nh1, nh2],
    v2_a := [nc, nv1, nv2],
    v2_s := [nc, nv1, nv2],
    h2_a := [k, nh1, nh2],
    h2_s := [k, nh1, nh2] }

/-- Method `input_size()`. -/
def input_size (l : dyn_conv_rbm) : Nat := size_mul (size_mul l.nv1 l.nv2) l.nc

/-- Method `output_size()`. -/
def output_size (l : dyn_conv_rbm) : Nat := size_mul (size_mul l.nh1 l.nh2) l.k

/-- Method `parameters()`. -/
def parameters (l : dyn_conv_rbm) : Nat :=
  size_mul (size_mul (size_mul l.nc l.k) l.nw1) l.nw2

/-- Method `prepare_one_output()`: a fresh `output_one_t(k, nh1, nh2)`. -/
def prepare_one_output {α : Type} [Inhabited α] (l : dyn_conv_rbm) : dyn_matrix3 α :=
  dyn_matrix3.create l.k l.nh1 l.nh2

end dyn_conv_rbm

/-! ## dyn_dense_layer -/

/-- Runtime fields of `dyn_dense_layer`, with the activation of its descriptor. -/
structure dyn_dense_layer (α : Type) where
  activation_function : function
  w : dyn_matrix2 α
  b : dyn_matrix1 α
  bak_w : Option (dyn_matrix2 α)
  bak_b : Option (dyn_matrix1 α)
  num_visible : Nat
  num_hidden : Nat

/-- Fields of `sgd_context<DBN, dyn_dense_layer<Desc>>`. -/
structure dyn_dense_context (α : Type) where
  w_grad : dyn_matrix2 α
  b_grad : dyn_matrix1 α
  w_inc : dyn_matrix2 α
  b_inc : dyn_matrix1 α
  input : dyn_matrix2 α
  output : dyn_matrix2 α
  errors : dyn_matrix2 α

namespace dyn_dense_layer

variable {α : Type}

/-- Method `init_layer(nv, nh)`.  The values the initializers draw for `w` and `b` are
the arguments `w_init` and `b_init`. -/
def init_layer (l : dyn_dense_layer α) (nv nh : Nat) (w_init : Nat → Nat → α)
    (b_init : Nat → α) : dyn_dense_layer α :=
  { l with
    num_visible := nv, num_hidden := nh,
    w := { dim0 := nv, dim1 := nh, val := w_init },
    b := { dim0 := nh, val := b_init } }

/-- Method `input_size()`. -/
def input_size (l : dyn_dense_layer α) : Nat := l.num_visible

/-- Method `output_size()`. -/
def output_size (l : dyn_dense_layer α) : Nat := l.num_hidden

/-- Method `parameters()`. -/
def parameters (l : dyn_dense_layer α) : Nat := size_mul l.num_visible l.num_hidden

/-- Method `activate_hidden(output, v)` for a rank-1 input; the result is the new `output`. -/
def activate_hidden [Semiring α] (be : activation_backend α) (l : dyn_dense_layer α)
    (v : dyn_matrix1 α) : dyn_matrix1 α :=
  f_activate1 be l.activation_function (l.b.add (v.mul l.w))

/-- Loop `for i < Batch: output(i) = f_activate<F>(expr(i))` of the SOFTMAX branch. -/
def softmax_rows (be : activation_backend α) (F : function) (expr : dyn_matrix2 α)
    (Batch : Nat) (output : dyn_matrix2 α) : dyn_matrix2 α :=
  (List.range Batch).foldl (fun out i => out.set_row i (f_activate1 be F (expr.row i))) output

/-- Method `batch_activate_hidden(output, v)` for a rank-2 input; the result is the new
`output`. -/
def batch_activate_hidden [Semiring α] (be : activation_backend α) (l : dyn_dense_layer α)
    (output : dyn_matrix2 α) (v : dyn_matrix2 α) : Except call_error (dyn_matrix2 α) :=
  let Batch := v.dim0
  if output.dim0 = Batch then
    if l.activation_function = function.SOFTMAX then
      let expr := (l.b.rep_l Batch).add (v.mul l.w)
      .ok (softmax_rows be l.activation_function expr Batch output)
    else
      .ok (f_activate2 be l.activation_function ((l.b.rep_l Batch).add (v.mul l.w)))
  else .error .assertion_failed

/-- Method `prepare_one_output()`: a fresh `output_one_t(num_hidden)`. -/
def prepare_one_output [Inhabited α] (l : dyn_dense_layer α) : dyn_matrix1 α :=
  dyn_matrix1.create l.num_hidden

/-- Method `backward_batch(output, context)`; the result is the new `output`, seen through
`etl::reshape(output, batch_size, num_visible)`. -/
def backward_batch [Semiring α] (l : dyn_dense_layer α) (output : dyn_matrix2 α)
    (context : dyn_dense_context α) : dyn_matrix2 α :=
  let batch_size := output.dim0
  let product := context.errors.mul l.w.transpose
  { dim0 := batch_size, dim1 := l.num_visible, val := product.val }

/-- Specialisation `layer_base_traits<dyn_dense_layer<Desc>>`. -/
def base_traits : layer_base_traits :=
  { is_neural := true, is_dense := true, is_conv := false, is_deconv := false,
    is_standard := true, is_rbm := false, is_pooling := false, is_unpooling := false,
    is_transform := false, is_patches := false, is_augment := false, is_dynamic := true,
    pretrain_last := false, sgd_supported := true }

end dyn_dense_layer

/-! ## ETL tensors of rank 4 and the pooling primitives -/

/-- Model of `etl::dyn_matrix<weight, 4>`: four extents and the elements. -/
structure dyn_matrix4 (α : Type) where
  dim0 : Nat
  dim1 : Nat
  dim2 : Nat
  dim3 : Nat
  val : Nat → Nat → Nat → Nat → α

namespace dyn_matrix4

variable {α : Type}

/-- Element count `etl::size(m)`. -/
def size (m : dyn_matrix4 α) : Nat := etl_size [m.dim0, m.dim1, m.dim2, m.dim3]

/-- Elementwise application of a scalar function. -/
def map (f : α → α) (a : dyn_matrix4 α) : dyn_matrix4 α :=
  { a with val := fun b i j k => f (a.val b i j k) }

/-- Elementwise product `a >> b`. -/
def scale [Mul α] (a b : dyn_matrix4 α) : dyn_matrix4 α :=
  { a with val := fun n i j k => a.val n i j k * b.val n i j k }

/-- Sum over all positions of the elementwise product of two tensors of the extents of `a`. -/
def dot [Semiring α] (a b : dyn_matrix4 α) : α :=
  (Finset.range a.dim0).sum fun n => (Finset.range a.dim1).sum fun i =>
    (Finset.range a.dim2).sum fun j => (Finset.range a.dim3).sum fun k =>
      a.val n i j k * b.val n i j k

end dyn_matrix4

/-- ETL primitive `etl::upsample_3d(x, c1, c2, c3)` on a batch: every element is replicated
over a `c1 x c2 x c3` block of the last three dimensions. -/
def etl_upsample_3d {α : Type} (x : dyn_matrix4 α) (c1 c2 c3 : Nat) : dyn_matrix4 α :=
  { dim0 := x.dim0, dim1 := x.dim1 * c1, dim2 := x.dim2 * c2, dim3 := x.dim3 * c3,
    val := fun n i j k => x.val n (i / c1) (j / c2) (k / c3) }

/-- Offsets `(a, b, c)` inside a `c1 x c2 x c3` pooling block, in loop order. -/
def block_offsets (c1 c2 c3 : Nat) : List (Nat × Nat × Nat) :=
  (List.range c1).flatMap fun a => (List.range c2).flatMap fun b =>
    (List.range c3).map fun c => (a, b, c)

/-- ETL primitive `etl::max_pool_3d(e, c1, c2, c3)` on a batch: the maximum of every
`c1 x c2 x c3` block of the last three dimensions, starting from the block's first element. -/
def etl_max_pool_3d {α : Type} [Max α] (e : dyn_matrix4 α) (c1 c2 c3 : Nat) : dyn_matrix4 α :=
  { dim0 := e.dim0, dim1 := e.dim1 / c1, dim2 := e.dim2 / c2, dim3 := e.dim3 / c3,
    val := fun n i j k =>
      (block_offsets c1 c2 c3).foldl
        (fun m o => max m (e.val n (i * c1 + o.1) (j * c2 + o.2.1) (k * c3 + o.2.2)))
        (e.val n (i * c1) (j * c2) (k * c3)) }

/-- ETL primitive `etl::sum_l(e)` on a matrix: the sum of the rows. -/
def etl_sum_l2 {α : Type} [Semiring α] (e : dyn_matrix2 α) : dyn_matrix1 α :=
  { dim0 := e.dim1, val := fun j => (Finset.range e.dim0).sum fun n => e.val n j }

/-- ETL primitive `batch_outer(a, b)`: the sum over the batch of the outer products of the
rows of `a` and `b`. -/
def etl_batch_outer {α : Type} [Semiring α] (a b : dyn_matrix2 α) : dyn_matrix2 α :=
  { dim0 := a.dim1, dim1 := b.dim1,
    val := fun i j => (Finset.range a.dim0).sum fun n => a.val n i * b.val n j }

/-- ETL primitive `etl::sum_l(e)` on a rank-4 tensor: the sum over the first dimension. -/
def etl_sum_l4 {α : Type} [Semiring α] (e : dyn_matrix4 α) : dyn_matrix3 α :=
  { dim0 := e.dim1, dim1 := e.dim2, dim2 := e.dim3,
    val := fun c i j => (Finset.range e.dim0).sum fun n => e.val n c i j }

/-- ETL primitive `etl::mean_r(x)` on a rank-3 tensor: the mean of each slice `x(c)`. -/
def etl_mean_r3 {α : Type} [DivisionRing α] (x : dyn_matrix3 α) : dyn_matrix1 α :=
  { dim0 := x.dim0,
    val := fun c =>
      ((Finset.range x.dim1).sum fun i => (Finset.range x.dim2).sum fun j => x.val c i j)
        / ((x.dim1 * x.dim2 : Nat) : α) }

/-- Call `f_derivative<F>(output)` of the numeric backend on a rank-4 tensor; `deriv F` is the
derivative of `F` expressed in terms of the stored output, applied element by element. -/
def f_derivative4 {α : Type} (deriv : function → α → α) (F : function) (o : dyn_matrix4 α) :
    dyn_matrix4 α :=
  o.map (deriv F)

/-- Call `f_derivative<F>(output)` of the numeric backend on a matrix. -/
def f_derivative2 {α : Type} (deriv : function → α → α) (F : function) (o : dyn_matrix2 α) :
    dyn_matrix2 α :=
  o.map (deriv F)

/-! ## dyn_upsample_layer_3d -/

/-- Runtime fields a `dyn_upsample_layer_3d` inherits from `dyn_unpooling_layer_3d`. -/
structure dyn_upsample_layer_3d where
  i1 : Nat
  i2 : Nat
  i3 : Nat
  c1 : Nat
  c2 : Nat
  c3 : Nat
  o1 : Nat
  o2 : Nat
  o3 : Nat
deriving DecidableEq

/-- Fields of `sgd_context<DBN, dyn_upsample_layer_3d<Desc>>`. -/
structure dyn_upsample_context (α : Type) where
  input : dyn_matrix4 α
  output : dyn_matrix4 α
  errors : dyn_matrix4 α

namespace dyn_upsample_layer_3d

variable {α : Type}

/-- Method `activate_hidden(h, v)` for one sample; the result is the new `h`. -/
def activate_hidden (l : dyn_upsample_layer_3d) (v : dyn_matrix3 α) : dyn_matrix3 α :=
  { dim0 := v.dim0 * l.c1, dim1 := v.dim1 * l.c2, dim2 := v.dim2 * l.c3,
    val := fun i j k => v.val (i / l.c1) (j / l.c2) (k / l.c3) }

/-- Method `batch_activate_hidden(output, input)`; the result is the new `output`. -/
def batch_activate_hidden (l : dyn_upsample_layer_3d) (input : dyn_matrix4 α) : dyn_matrix4 α :=
  etl_upsample_3d input l.c1 l.c2 l.c3

/-- Method `adapt_errors(context)`; the result is the context after the call. -/
def adapt_errors (_l : dyn_upsample_layer_3d) (context : dyn_upsample_context α) :
    dyn_upsample_context α :=
  context

/-- Method `compute_gradients(context)`; the result is the context after the call. -/
def compute_gradients (_l : dyn_upsample_layer_3d) (context : dyn_upsample_context α) :
    dyn_upsample_context α :=
  context

/-- Method `backward_batch(output, context)` for a rank-4 `output`; the result is the new
`output`. -/
def backward_batch [Max α] (l : dyn_upsample_layer_3d) (_output : dyn_matrix4 α)
    (context : dyn_upsample_context α) : dyn_matrix4 α :=
  etl_max_pool_3d context.errors l.c1 l.c2 l.c3

/-- Method `backward_batch(output, context)` for a flattened `output` of rank 2; the pooled
tensor is written through `etl::reshape(output, B, i1, i2, i3)`, row-major. -/
def backward_batch_flat [Max α] (l : dyn_upsample_layer_3d) (output : dyn_matrix2 α)
    (context : dyn_upsample_context α) : dyn_matrix2 α :=
  let pooled := etl_max_pool_3d context.errors l.c1 l.c2 l.c3
  { dim0 := output.dim0, dim1 := output.dim1,
    val := fun n m => pooled.val n (m / (l.i2 * l.i3)) (m / l.i3 % l.i2) (m % l.i3) }

/-- Method `dyn_init(dyn)`: nothing to change. -/
def dyn_init {D : Type} (dyn : D) : D := dyn

/-- Specialisation `layer_base_traits<dyn_upsample_layer_3d<Desc>>`. -/
def base_traits : layer_base_traits :=
  { is_neural := false, is_dense := false, is_conv := false, is_deconv := false,
    is_standard := true, is_rbm := false, is_pooling := false, is_unpooling := true,
    is_transform := false, is_patches := false, is_augment := false, is_dynamic := true,
    pretrain_last := false, sgd_supported := true }

end dyn_upsample_layer_3d

/-! ## avgp_layer_3d -/

/-- Constants an `avgp_layer_3d` inherits from `pooling_layer_3d`. -/
structure avgp_desc where
  I1 : Nat
  I2 : Nat
  I3 : Nat
  C1 : Nat
  C2 : Nat
  C3 : Nat
deriving DecidableEq

/-- Fields of `sgd_context<DBN, avgp_layer_3d<Desc>>`. -/
structure avgp_context (α : Type) where
  input : dyn_matrix4 α
  output : dyn_matrix4 α
  errors : dyn_matrix4 α

namespace avgp_layer_3d

variable {α : Type}

/-- Method `adapt_errors(context)`; the result is the context after the call. -/
def adapt_errors (_d : avgp_desc) (context : avgp_context α) : avgp_context α := context

/-- Method `compute_gradients(context)`; the result is the context after the call. -/
def compute_gradients (_d : avgp_desc) (context : avgp_context α) : avgp_context α := context

/-- Method `dyn_init(dyn)`: `dyn.init_layer(I1, I2, I3, C1, C2, C3)`. -/
def dyn_init {D : Type} (d : avgp_desc) (init_layer : D → Nat → Nat → Nat → Nat → Nat → Nat → D)
    (dyn : D) : D :=
  init_layer dyn d.I1 d.I2 d.I3 d.C1 d.C2 d.C3

/-- Specialisation `layer_base_traits<avgp_layer_3d<Desc>>`. -/
def base_traits : layer_base_traits :=
  { is_neural := false, is_dense := false, is_conv := false, is_deconv := false,
    is_standard := true, is_rbm := false, is_pooling := true, is_unpooling := false,
    is_transform := false, is_patches := false, is_augment := false, is_dynamic := false,
    pretrain_last := false, sgd_supported := true }

end avgp_layer_3d

/-! ## deconv_layer: training context -/

/-- Fields of `sgd_context<DBN, deconv_layer<Desc>>`. -/
structure deconv_context (α : Type) where
  w_grad : dyn_matrix4 α
  b_grad : dyn_matrix1 α
  w_inc : dyn_matrix4 α
  b_inc : dyn_matrix1 α
  input : dyn_matrix4 α
  output : dyn_matrix4 α
  errors : dyn_matrix4 α

/-- Weights of a `deconv_layer` instance. -/
structure deconv_weights (α : Type) where
  w : dyn_matrix4 α
  b : dyn_matrix1 α
  bak_w : Option (dyn_matrix4 α)
  bak_b : Option (dyn_matrix1 α)

namespace deconv_layer

variable {α : Type}

/-- Extents of the weight tensor `w_type = fast_matrix<weight, NC, K, NW1, NW2>`. -/
def w_dims (d : deconv_desc) : List Nat := [d.NC, d.K, d.NW1, d.NW2]

/-- Method `adapt_errors(context)`; the result is the context after the call. -/
def adapt_errors [Mul α] (deriv : function → α → α) (d : deconv_desc)
    (context : deconv_context α) : deconv_context α :=
  if d.activation_function ≠ function.IDENTITY then
    { context with
      errors := (f_derivative4 deriv d.activation_function context.output).scale context.errors }
  else context

/-- Method `compute_gradients(context)`; the assignment of `w_grad` is commented out in the
source, only `b_grad` is assigned. -/
def compute_gradients [DivisionRing α] (_d : deconv_desc) (context : deconv_context α) :
    deconv_context α :=
  { context with b_grad := etl_mean_r3 (etl_sum_l4 context.errors) }

/-- Method `dyn_init(dyn)`: `dyn.init_layer(NC, NV1, NV2, K, NW1, NW2)`. -/
def dyn_init {D : Type} (d : deconv_desc)
    (init_layer : D → Nat → Nat → Nat → Nat → Nat → Nat → D) (dyn : D) : D :=
  init_layer dyn d.NC d.NV1 d.NV2 d.K d.NW1 d.NW2

end deconv_layer

/-- Elementwise product `a >> b` of two matrices. -/
def dyn_matrix2.scale {α : Type} [Mul α] (a b : dyn_matrix2 α) : dyn_matrix2 α :=
  { a with val := fun n j => a.val n j * b.val n j }

/-! ## dyn_dense_layer: training -/

namespace dyn_dense_layer

variable {α : Type}

/-- Method `adapt_errors(context)`; the result is the context after the call. -/
def adapt_errors [Mul α] (deriv : function → α → α) (l : dyn_dense_layer α)
    (context : dyn_dense_context α) : dyn_dense_context α :=
  { context with
    errors := (f_derivative2 deriv l.activation_function context.output).scale context.errors }

/-- Method `compute_gradients(context)`; the result is the context after the call. -/
def compute_gradients [Semiring α] (_l : dyn_dense_layer α) (context : dyn_dense_context α) :
    dyn_dense_context α :=
  { context with
    w_grad := etl_batch_outer context.input context.errors,
    b_grad := etl_sum_l2 context.errors }

/-- Method `dyn_init(dyn)`: nothing to change. -/
def dyn_init {D : Type} (dyn : D) : D := dyn

end dyn_dense_layer

/-- Method `dyn_patches_layer::dyn_init(dyn)`: nothing to change. -/
def dyn_patches_layer.dyn_init {D : Type} (dyn : D) : D := dyn

/-! ## dyn_conv_rbm: units, training context -/

/-- Modelled from the spec: the enumeration `dll::unit_type` is declared in a header that is
not among the sources.  BINARY, SOFTMAX and RELU are the values the sources name; GAUSSIAN,
RELU1 and RELU6 are the remaining unit kinds of the library. -/
inductive unit_type where
  | BINARY
  | SOFTMAX
  | GAUSSIAN
  | RELU
  | RELU1
  | RELU6
deriving DecidableEq

/-- Fields of `sgd_context<DBN, dyn_conv_rbm<Desc>>`. -/
structure dyn_conv_rbm_context (α : Type) where
  w_grad : dyn_matrix4 α
  b_grad : dyn_matrix1 α
  w_inc : dyn_matrix4 α
  b_inc : dyn_matrix1 α
  input : dyn_matrix4 α
  output : dyn_matrix4 α
  errors : dyn_matrix4 α

/-- Fresh tensor `etl::dyn_matrix<weight, 4>(d0, d1, d2, d3)`. -/
def dyn_matrix4.create {α : Type} [Inhabited α] (d0 d1 d2 d3 : Nat) : dyn_matrix4 α :=
  { dim0 := d0, dim1 := d1, dim2 := d2, dim3 := d3, val := fun _ _ _ _ => default }

/-- Extents of a rank-4 tensor, as a list. -/
def dyn_matrix4.dims {α : Type} (m : dyn_matrix4 α) : List Nat :=
  [m.dim0, m.dim1, m.dim2, m.dim3]

/-- Constructor `sgd_context(nc, nv1, nv2, k, nh1, nh2)` of the `dyn_conv_rbm` context, for a
network of batch size `batch_size = DBN::batch_size`. -/
def dyn_conv_rbm_context.create {α : Type} [Inhabited α] (batch_size : Nat)
    (nc nv1 nv2 k nh1 nh2 : Nat) : dyn_conv_rbm_context α :=
  { w_grad := dyn_matrix4.create k nc (size_add (size_sub nv1 nh1) 1)
      (size_add (size_sub nv2 nh2) 1),
    b_grad := dyn_matrix1.create k,
    w_inc := dyn_matrix4.create k nc (size_add (size_sub nv1 nh1) 1)
      (size_add (size_sub nv2 nh2) 1),
    b_inc := dyn_matrix1.create k,
    input := dyn_matrix4.create batch_size nc nv1 nv2,
    output := dyn_matrix4.create batch_size k nh1 nh2,
    errors := dyn_matrix4.create batch_size k nh1 nh2 }

namespace dyn_conv_rbm

variable {α : Type}

/-- State of a default-constructed `dyn_conv_rbm`: `batch_size` has the initializer 25, the
other fields hold whatever `junk` holds. -/
def construct (junk : dyn_conv_rbm) : dyn_conv_rbm := { junk with batch_size := 25 }

/-- Method `init_sgd_context<DBN>()`; the result is the context it allocates. -/
def init_sgd_context [Inhabited α] (l : dyn_conv_rbm) (dbn_batch_size : Nat) :
    dyn_conv_rbm_context α :=
  dyn_conv_rbm_context.create dbn_batch_size l.nc l.nv1 l.nv2 l.k l.nh1 l.nh2

/-- The `static_assert` of `adapt_errors` and the `activation_function` it selects:
`none` when the assertion rejects the hidden unit. -/
def adapt_errors_function (hidden_unit : unit_type) : Option function :=
  if hidden_unit = unit_type.BINARY ∨ hidden_unit = unit_type.RELU
      ∨ hidden_unit = unit_type.SOFTMAX then
    some (if hidden_unit = unit_type.BINARY then function.SIGMOID
          else if hidden_unit = unit_type.SOFTMAX then function.SOFTMAX else function.RELU)
  else none

/-- Method `adapt_errors(context)`; `none` when it does not compile, else the context after
the call. -/
def adapt_errors [Mul α] (deriv : function → α → α) (hidden_unit : unit_type)
    (context : dyn_conv_rbm_context α) : Option (dyn_conv_rbm_context α) :=
  match adapt_errors_function hidden_unit with
  | none => none
  | some activation_function =>
    some { context with
      errors := (f_derivative4 deriv activation_function context.output).scale context.errors }

/-- Method `dyn_init(dyn)`: nothing to change. -/
def dyn_init {D : Type} (dyn : D) : D := dyn

/-- Specialisation `layer_base_traits<dyn_conv_rbm<Desc>>`. -/
def base_traits (hidden_unit : unit_type) : layer_base_traits :=
  { is_neural := true, is_dense := false, is_conv := true, is_deconv := false,
    is_standard := false, is_rbm := true, is_pooling := false, is_unpooling := false,
    is_transform := false, is_patches := false, is_augment := false, is_dynamic := true,
    pretrain_last := decide (hidden_unit ≠ unit_type.SOFTMAX), sgd_supported := true }

end dyn_conv_rbm

/-! ## rectifier_layer -/

/-- Modelled from the spec: the enumeration `dll::rectifier_method` is not among the sources.
ABS is the value the source names; `OTHER n` stands for any other method. -/
inductive rectifier_method where
  | ABS
  | OTHER (n : Nat)
deriving DecidableEq

namespace rectifier_layer

variable {α : Type}

/-- ETL primitive `etl::abs(x)` on a rank-3 tensor. -/
def abs3 [Lattice α] [AddGroup α] (x : dyn_matrix3 α) : dyn_matrix3 α :=
  { x with val := fun c i j => |x.val c i j| }

/-- ETL primitive `etl::abs(x)` on a rank-4 tensor. -/
def abs4 [Lattice α] [AddGroup α] (x : dyn_matrix4 α) : dyn_matrix4 α :=
  { x with val := fun n c i j => |x.val n c i j| }

/-- Method `activate_hidden(output, input)`: `none` when the class-level `static_assert`
rejects the method, else the new `output`. -/
def activate_hidden [Lattice α] [AddGroup α] (method : rectifier_method)
    (output input : dyn_matrix3 α) : Option (dyn_matrix3 α) :=
  if method = rectifier_method.ABS then
    some (if method = rectifier_method.ABS then abs3 input else output)
  else none

/-- Method `batch_activate_hidden(output, input)`: `none` when the class-level
`static_assert` rejects the method, else the new `output`. -/
def batch_activate_hidden [Lattice α] [AddGroup α] (method : rectifier_method)
    (output input : dyn_matrix4 α) : Option (dyn_matrix4 α) :=
  if method = rectifier_method.ABS then
    some (if method = rectifier_method.ABS then abs4 input else output)
  else none

/-- Specialisation `layer_base_traits<rectifier_layer<Desc>>`. -/
def base_traits : layer_base_traits :=
  { is_neural := false, is_dense := false, is_conv := false, is_deconv := false,
    is_standard := false, is_rbm := false, is_pooling := false, is_unpooling := false,
    is_transform := true, is_patches := false, is_augment := false, is_dynamic := false,
    pretrain_last := false, sgd_supported := true }

end rectifier_layer

/-- Sub-expression `m(n)`: sample `n` of a batch. -/
def dyn_matrix4.sample {α : Type} (m : dyn_matrix4 α) (n : Nat) : dyn_matrix3 α :=
  { dim0 := m.dim1, dim1 := m.dim2, dim2 := m.dim3, val := fun c i j => m.val n c i j }

/-! ## Accessors of layer_traits.hpp -/

/-- Members an accessor can name: `none` where the layer type declares no such member. -/
structure layer_members where
  batch_size : Option Nat
  nc : Option Nat
  k : Option Nat
  nv1 : Option Nat
  nv2 : Option Nat
  nw1 : Option Nat
  nw2 : Option Nat
  num_visible : Option Nat
  num_hidden : Option Nat
  input_size : Option Nat
  output_size : Option Nat
deriving DecidableEq

/-- No member at all. -/
def layer_members.empty : layer_members :=
  { batch_size := none, nc := none, k := none, nv1 := none, nv2 := none, nw1 := none,
    nw2 := none, num_visible := none, num_hidden := none, input_size := none,
    output_size := none }

/-- What the two overloads of an accessor see of a layer `rbm` of type `RBM`: its traits, the
members read off the instance (`rbm.nc`, `rbm.input_size()`) and the members read off the
type (`RBM::NC`, `RBM::desc::num_visible`, `RBM::input_size()`). -/
structure accessor_view where
  traits : layer_base_traits
  of_instance : layer_members
  of_type : layer_members
deriving DecidableEq

namespace accessor_view

/-- Overload selection by `layer_traits<RBM>::is_dynamic()`. -/
def dispatch (v : accessor_view) (pick : layer_members → Option Nat) : Option Nat :=
  if layer_traits.is_dynamic v.traits then pick v.of_instance else pick v.of_type

/-- Accessor `get_batch_size(rbm)`. -/
def get_batch_size (v : accessor_view) : Option Nat := v.dispatch fun m => m.batch_size

/-- Accessor `get_nc(rbm)`. -/
def get_nc (v : accessor_view) : Option Nat := v.dispatch fun m => m.nc

/-- Accessor `get_k(rbm)`. -/
def get_k (v : accessor_view) : Option Nat := v.dispatch fun m => m.k

/-- Accessor `get_nv1(rbm)`. -/
def get_nv1 (v : accessor_view) : Option Nat := v.dispatch fun m => m.nv1

/-- Accessor `get_nv2(rbm)`. -/
def get_nv2 (v : accessor_view) : Option Nat := v.dispatch fun m => m.nv2

/-- Accessor `get_nw1(rbm)`. -/
def get_nw1 (v : accessor_view) : Option Nat := v.dispatch fun m => m.nw1

/-- Accessor `get_nw2(rbm)`. -/
def get_nw2 (v : accessor_view) : Option Nat := v.dispatch fun m => m.nw2

/-- Accessor `num_visible(rbm)`. -/
def num_visible (v : accessor_view) : Option Nat := v.dispatch fun m => m.num_visible

/-- Accessor `num_hidden(rbm)`. -/
def num_hidden (v : accessor_view) : Option Nat := v.dispatch fun m => m.num_hidden

/-- Accessor `output_size(rbm)`. -/
def output_size (v : accessor_view) : Option Nat := v.dispatch fun m => m.output_size

/-- Accessor `input_size(rbm)`. -/
def input_size (v : accessor_view) : Option Nat := v.dispatch fun m => m.input_size

end accessor_view

/-- View of a `dyn_conv_rbm` instance: all its members are instance members. -/
def dyn_conv_rbm.view (hidden_unit : unit_type) (l : dyn_conv_rbm) : accessor_view :=
  { traits := dyn_conv_rbm.base_traits hidden_unit,
    of_instance :=
      { batch_size := some l.batch_size, nc := some l.nc, k := some l.k, nv1 := some l.nv1,
        nv2 := some l.nv2, nw1 := some l.nw1, nw2 := some l.nw2, num_visible := none,
        num_hidden := none, input_size := some l.input_size,
        output_size := some l.output_size },
    of_type := layer_members.empty }

/-- View of a `dyn_dense_layer` instance. -/
def dyn_dense_layer.view {α : Type} (l : dyn_dense_layer α) : accessor_view :=
  { traits := dyn_dense_layer.base_traits,
    of_instance :=
      { layer_members.empty with
        num_visible := some l.num_visible, num_hidden := some l.num_hidden,
        input_size := some l.input_size, output_size := some l.output_size },
    of_type := layer_members.empty }

/-- View of a `deconv_layer<Desc>` instance: the dimensions are static members of the type;
the instance `_inst` only holds the weights. -/
def deconv_layer.view {α : Type} (d : deconv_desc) (_inst : deconv_weights α) : accessor_view :=
  { traits := deconv_layer.base_traits,
    of_instance := layer_members.empty,
    of_type :=
      { layer_members.empty with
        nc := some d.NC, k := some d.K, nv1 := some d.NV1, nv2 := some d.NV2,
        nw1 := some d.NW1, nw2 := some d.NW2,
        input_size := some (deconv_layer.input_size d),
        output_size := some (deconv_layer.output_size d) } }

/-! ## Descriptors and their options -/

/-- Numeric type of the weights. -/
inductive weight_kind where
  | float
  | double
deriving DecidableEq

/-- Modelled from the spec: the enumeration `dll::initializer_type` is not among the sources.
LECUN is the value the source names; the others are further initializer schemes. -/
inductive initializer_type where
  | NONE
  | ZERO
  | GAUSSIAN
  | UNIFORM
  | LECUN
  | XAVIER
  | HE
deriving DecidableEq

/-- Modelled from the spec: kinds of configuration options (the `..._id` tags of
`base_conf.hpp`, which is not among the sources), following the vocabulary of the spec. -/
inductive option_id where
  | weight_type_id
  | activation_id
  | initializer_id
  | initializer_bias_id
  | copy_id
  | elastic_id
  | momentum_id
  | weight_decay_id
  | sparsity_id
  | bias_id
  | batch_size_id
  | dbn_only_id
  | parallel_mode_id
  | serial_id
  | verbose_id
  | shuffle_id
  | clip_gradients_id
  | free_energy_id
  | init_weights_id
  | hidden_id
  | visible_id
deriving DecidableEq

/-- Modelled from the spec: the options that carry no value read by the descriptors of the
sources (`base_conf.hpp` is not among the sources), following the vocabulary of the spec. -/
inductive plain_option where
  | copy
  | elastic
  | momentum
  | weight_decay
  | sparsity
  | bias
  | batch_size
  | dbn_only
  | parallel_mode
  | serial
  | verbose
  | shuffle
  | clip_gradients
  | free_energy
  | init_weights
  | hidden
  | visible
deriving DecidableEq

/-- Kind of a plain option. -/
def plain_option.type_id : plain_option → option_id
  | .copy => .copy_id
  | .elastic => .elastic_id
  | .momentum => .momentum_id
  | .weight_decay => .weight_decay_id
  | .sparsity => .sparsity_id
  | .bias => .bias_id
  | .batch_size => .batch_size_id
  | .dbn_only => .dbn_only_id
  | .parallel_mode => .parallel_mode_id
  | .serial => .serial_id
  | .verbose => .verbose_id
  | .shuffle => .shuffle_id
  | .clip_gradients => .clip_gradients_id
  | .free_energy => .free_energy_id
  | .init_weights => .init_weights_id
  | .hidden => .hidden_id
  | .visible => .visible_id

/-- Modelled from the spec: a configuration option passed to a descriptor. The four options
`dyn_conv_desc` reads carry their value; the others carry their kind only. -/
inductive parameter where
  | weight_type (t : weight_kind)
  | activation (f : function)
  | initializer (i : initializer_type)
  | initializer_bias (i : initializer_type)
  | other (o : plain_option)
deriving DecidableEq

/-- Kind of an option (`T::type_id`). -/
def parameter.type_id : parameter → option_id
  | .weight_type _ => .weight_type_id
  | .activation _ => .activation_id
  | .initializer _ => .initializer_id
  | .initializer_bias _ => .initializer_bias_id
  | .other o => o.type_id

namespace detail

/-- Modelled from the spec: `detail::is_valid<cpp::type_list<Ids...>, Parameters...>` of
`util/tmp.hpp`, not among the sources: every supplied option has its kind in the list. -/
def is_valid (allowed : List option_id) (parameters : List parameter) : Bool :=
  parameters.all fun p => allowed.contains p.type_id

/-- Modelled from the spec: `detail::get_value<activation<D>, Parameters...>` of
`util/tmp.hpp`, not among the sources: the value of the first supplied option of that kind,
the default `D` when none is supplied. -/
def get_activation (dflt : function) : List parameter → function
  | [] => dflt
  | .activation f :: _ => f
  | _ :: rest => get_activation dflt rest

/-- Modelled from the spec: `detail::get_value<initializer<D>, Parameters...>`. -/
def get_initializer (dflt : initializer_type) : List parameter → initializer_type
  | [] => dflt
  | .initializer i :: _ => i
  | _ :: rest => get_initializer dflt rest

/-- Modelled from the spec: `detail::get_value<initializer_bias<D>, Parameters...>`. -/
def get_initializer_bias (dflt : initializer_type) : List parameter → initializer_type
  | [] => dflt
  | .initializer_bias i :: _ => i
  | _ :: rest => get_initializer_bias dflt rest

/-- Modelled from the spec: `detail::get_type<weight_type<D>, Parameters...>`. -/
def get_weight_type (dflt : weight_kind) : List parameter → weight_kind
  | [] => dflt
  | .weight_type t :: _ => t
  | _ :: rest => get_weight_type dflt rest

end detail

/-- Members of an instantiated `dyn_conv_desc<Parameters...>`. -/
structure dyn_conv_desc where
  parameters : List parameter
  activation_function : function
  w_initializer : initializer_type
  b_initializer : initializer_type
  weight : weight_kind
deriving DecidableEq

/-- Instantiation `dyn_conv_desc<Parameters...>`: `none` when the `static_assert` fails. -/
def dyn_conv_desc.make (parameters : List parameter) : Option dyn_conv_desc :=
  if detail.is_valid [.weight_type_id, .activation_id, .initializer_id, .initializer_bias_id]
      parameters then
    some
      { parameters := parameters,
        activation_function := detail.get_activation function.SIGMOID parameters,
        w_initializer := detail.get_initializer initializer_type.LECUN parameters,
        b_initializer := detail.get_initializer_bias initializer_type.LECUN parameters,
        weight := detail.get_weight_type weight_kind.float parameters }
  else none

/-- Members of an instantiated `dyn_patches_layer_desc<Parameters...>`. -/
structure dyn_patches_layer_desc where
  parameters : List parameter
  weight : weight_kind
deriving DecidableEq

/-- Instantiation `dyn_patches_layer_desc<Parameters...>`: `none` when the `static_assert`
fails. -/
def dyn_patches_layer_desc.make (parameters : List parameter) :
    Option dyn_patches_layer_desc :=
  if detail.is_valid [.weight_type_id] parameters then
    some { parameters := parameters,
           weight := detail.get_weight_type weight_kind.float parameters }
  else none

/-- Members of an instantiated `augment_layer_desc<Parameters...>`. -/
structure augment_layer_desc where
  parameters : List parameter
deriving DecidableEq

/-- Instantiation `augment_layer_desc<Parameters...>`: `none` when the `static_assert`
fails. -/
def augment_layer_desc.make (parameters : List parameter) : Option augment_layer_desc :=
  if detail.is_valid [.copy_id, .elastic_id] parameters then
    some { parameters := parameters }
  else none

/-! ## Sample inputs -/

namespace sample

/-- Input of shape `1 x 3 x 5` whose element `(c, y, x)` is `10 * y + x`. -/
def image : dyn_matrix3 Nat := { dim0 := 1, dim1 := 3, dim2 := 5, val := fun _ y x => 10 * y + x }

/-- Patch layer after `init_layer(2, 2, 1, 2)`. -/
def patch_layer : dyn_patches_layer :=
  dyn_patches_layer.init_layer ⟨0, 0, 0, 0⟩ 2 2 1 2

/-- Descriptor of the test `deconv_desc<1, 28, 28, 10, 9, 9>`. -/
def deconv : deconv_desc :=
  { NC := 1, NV1 := 28, NV2 := 28, K := 10, NW1 := 9, NW2 := 9,
    activation_function := function.SIGMOID }

/-- Default-constructed `dyn_conv_rbm`: only `batch_size` has an initializer. -/
def crbm : dyn_conv_rbm :=
  { w := [], b := [], c := [], v1 := [], h1_a := [], h1_s := [], v2_a := [], v2_s := [],
    h2_a := [], h2_s := [], nv1 := 0, nv2 := 0, nh1 := 0, nh2 := 0, nc := 0, k := 0,
    nw1 := 0, nw2 := 0, batch_size := 25 }

/-- Backend over the integers: RELU clamps at zero, the other entries are the identity. -/
def backend : activation_backend Int :=
  { scalar := fun F x => if F = function.RELU then max x 0 else x,
    softmax1 := fun e => e,
    softmax2 := fun e => e }

/-- Dense layer with 2 visible and 2 hidden units over the integers. -/
def dense : dyn_dense_layer Int :=
  dyn_dense_layer.init_layer
    { activation_function := function.RELU, w := ⟨0, 0, fun _ _ => 0⟩, b := ⟨0, fun _ => 0⟩,
      bak_w := none, bak_b := none, num_visible := 0, num_hidden := 0 }
    2 2 (fun i j => (i : Int) - 2 * j) (fun j => j)

/-- Batch of 3 samples of length 2. -/
def batch : dyn_matrix2 Int := { dim0 := 3, dim1 := 2, val := fun i k => (i : Int) + k }

/-- Output buffer of 3 rows of length 2. -/
def out_buffer : dyn_matrix2 Int := { dim0 := 3, dim1 := 2, val := fun _ _ => 0 }

/-- Training context whose `errors` is a 3 x 2 matrix. -/
def context : dyn_dense_context Int :=
  { w_grad := ⟨2, 2, fun _ _ => 0⟩, b_grad := ⟨2, fun _ => 0⟩, w_inc := ⟨2, 2, fun _ _ => 0⟩,
    b_inc := ⟨2, fun _ => 0⟩, input := batch, output := out_buffer,
    errors := { dim0 := 3, dim1 := 2, val := fun i j => 2 * (i : Int) - j } }

end sample

/-! ## Sample inputs for the training claims -/

namespace sample

/-- Upsample layer with factors `1 x 1 x 2` on inputs of extents `1 x 1 x 1`. -/
def upsample : dyn_upsample_layer_3d :=
  { i1 := 1, i2 := 1, i3 := 1, c1 := 1, c2 := 1, c3 := 2, o1 := 1, o2 := 1, o3 := 2 }

/-- Upsample layer with factors `1 x 1 x 1`. -/
def upsample_unit : dyn_upsample_layer_3d :=
  { i1 := 1, i2 := 1, i3 := 2, c1 := 1, c2 := 1, c3 := 1, o1 := 1, o2 := 1, o3 := 2 }

/-- Input batch of shape `1 x 1 x 1 x 1` holding the value 1. -/
def unit_input : dyn_matrix4 Int :=
  { dim0 := 1, dim1 := 1, dim2 := 1, dim3 := 1, val := fun _ _ _ _ => 1 }

/-- Error batch of shape `1 x 1 x 1 x 2` holding the values 3 and 5. -/
def pair_errors : dyn_matrix4 Int :=
  { dim0 := 1, dim1 := 1, dim2 := 1, dim3 := 2, val := fun _ _ _ k => 3 + 2 * (k : Int) }

/-- Context of the upsample layer whose `errors` is `pair_errors`. -/
def upsample_context : dyn_upsample_context Int :=
  { input := unit_input, output := pair_errors, errors := pair_errors }

/-- Rank-4 tensor over the rationals with the given extents and one value everywhere. -/
def constant4 (d0 d1 d2 d3 : Nat) (v : Rat) : dyn_matrix4 Rat :=
  { dim0 := d0, dim1 := d1, dim2 := d2, dim3 := d3, val := fun _ _ _ _ => v }

/-- Context of the sample deconv layer whose `w_grad` holds `g` everywhere. -/
def deconv_context (g : Rat) : deconv_context Rat :=
  { w_grad := constant4 1 10 9 9 g, b_grad := ⟨10, fun _ => 0⟩,
    w_inc := constant4 1 10 9 9 0, b_inc := ⟨10, fun _ => 0⟩,
    input := constant4 2 1 28 28 1, output := constant4 2 10 36 36 0,
    errors := constant4 2 10 36 36 1 }

/-- Descriptor of a deconv layer with the IDENTITY activation. -/
def deconv_identity : deconv_desc :=
  { NC := 1, NV1 := 28, NV2 := 28, K := 10, NW1 := 9, NW2 := 9,
    activation_function := function.IDENTITY }

/-- Descriptor of a deconv layer with two input channels. -/
def deconv_two_channels : deconv_desc :=
  { NC := 2, NV1 := 28, NV2 := 28, K := 10, NW1 := 9, NW2 := 9,
    activation_function := function.SIGMOID }

end sample

/-! ## Softmax and sample inputs for the SOFTMAX dense layer -/

/-- Modelled from the spec: the softmax that `f_activate<function::SOFTMAX>` computes on a
rank-1 expression (`f_activate` is declared outside the sources at hand): entry `j` is
`exp(e_j) / (exp(e_0) + ... + exp(e_{n-1}))`, with `exp` the exponential of the numeric
type. -/
def softmax {α : Type} [Field α] (exp : α → α) (e : dyn_matrix1 α) : dyn_matrix1 α :=
  { dim0 := e.dim0,
    val := fun j => exp (e.val j) / (Finset.range e.dim0).sum fun i => exp (e.val i) }

/-- Modelled from the spec: the softmax on a rank-2 expression, normalised over all of its
elements. -/
def softmax_2d {α : Type} [Field α] (exp : α → α) (e : dyn_matrix2 α) : dyn_matrix2 α :=
  { dim0 := e.dim0, dim1 := e.dim1,
    val := fun i j => exp (e.val i j)
      / (Finset.range e.dim0).sum fun a => (Finset.range e.dim1).sum fun b => exp (e.val a b) }

/-- Modelled from the spec: the exact backend for the exponential `exp`: identity, logistic
sigmoid `1 / (1 + exp(-x))`, hyperbolic tangent, `max(x, 0)`, and the softmax above. -/
def exact_backend {α : Type} [LinearOrderedField α] (exp : α → α) : activation_backend α :=
  { scalar := fun F x =>
      match F with
      | function.IDENTITY => x
      | function.SIGMOID => 1 / (1 + exp (-x))
      | function.TANH => (exp x - exp (-x)) / (exp x + exp (-x))
      | function.RELU => max x 0
      | function.SOFTMAX => x,
    softmax1 := softmax exp,
    softmax2 := softmax_2d exp }

namespace sample

/-- Dense SOFTMAX layer with 1 visible and 2 hidden units, weights 7 and bias `(1, b1)`. -/
def softmax_dense {α : Type} [Field α] (b1 : α) : dyn_dense_layer α :=
  dyn_dense_layer.init_layer
    { activation_function := function.SOFTMAX, w := ⟨0, 0, fun _ _ => 0⟩, b := ⟨0, fun _ => 0⟩,
      bak_w := none, bak_b := none, num_visible := 0, num_hidden := 0 }
    1 2 (fun _ _ => 7) (fun j => if j = 0 then 1 else b1)

/-- All-zero input of length 1. -/
def zero_input {α : Type} [Field α] : dyn_matrix1 α := { dim0 := 1, val := fun _ => 0 }

/-- Input of shape `1 x 2 x 2` with element `(c, y, x)` equal to `10 * y + x`. -/
def small_image : dyn_matrix3 Nat :=
  { dim0 := 1, dim1 := 2, dim2 := 2, val := fun _ y x => 10 * y + x }

/-- Patch layer after `init_layer(2, 2, 0, 1)`: the vertical stride is zero. -/
def stuck_layer : dyn_patches_layer :=
  dyn_patches_layer.init_layer ⟨0, 0, 0, 0⟩ 2 2 0 1

/-- Patch layer after `init_layer(2, 4, 1, 1)`: patches of height 4. -/
def tall_layer : dyn_patches_layer :=
  dyn_patches_layer.init_layer ⟨0, 0, 0, 0⟩ 2 4 1 1

end sample


/-! ## Sample inputs at the limits of `std::size_t` -/

namespace sample

/-- Patch layer after `init_layer(2, 2, 2^64 - 1, 1)`: the vertical stride is the largest
`std::size_t`. -/
def wrap_layer : dyn_patches_layer :=
  dyn_patches_layer.init_layer ⟨0, 0, 0, 0⟩ 2 2 18446744073709551615 1

/-- Patch layer after `init_layer(2, 2, 1, 1)`: `2 x 2` patches, unit strides. -/
def unit_stride_layer : dyn_patches_layer :=
  dyn_patches_layer.init_layer ⟨0, 0, 0, 0⟩ 2 2 1 1

/-- Input of shape `1 x (2^64 - 1) x 0`: it holds no element. -/
def tall_empty_input : dyn_matrix3 Nat :=
  { dim0 := 1, dim1 := 18446744073709551615, dim2 := 0, val := fun _ _ _ => 0 }

/-- Patch layer after `init_layer(2^32, 2^32, 1, 1)`. -/
def huge_patch_layer : dyn_patches_layer :=
  dyn_patches_layer.init_layer ⟨0, 0, 0, 0⟩ 4294967296 4294967296 1 1

/-- Descriptor `<1, 2^32, 2^32, 1, 1, 1>` of a deconv layer. -/
def deconv_wrap : deconv_desc :=
  { NC := 1, NV1 := 4294967296, NV2 := 4294967296, K := 1, NW1 := 1, NW2 := 1,
    activation_function := function.SIGMOID }

/-- Descriptor `<1, 0, 0, 1, 0, 0>` of a deconv layer. -/
def deconv_zero : deconv_desc :=
  { NC := 1, NV1 := 0, NV2 := 0, K := 1, NW1 := 0, NW2 := 0,
    activation_function := function.SIGMOID }

end sample

/-! ## Proofs: dyn_patches_layer -/

theorem size_add_of_lt {a b : Nat} (h : a + b < SIZE_MOD) : size_add a b = a + b :=
  Nat.mod_eq_of_lt h

theorem size_add_lt (a b : Nat) : size_add a b < SIZE_MOD :=
  Nat.mod_lt _ (by unfold SIZE_MOD; exact Nat.two_pow_pos 64)

theorem counted_loop_ok {σ : Type} (body : σ → Nat → Except call_error σ) (g : σ → Nat → σ) :
    ∀ (is : List Nat) (s : σ), (∀ i ∈ is, ∀ t, body t i = .ok (g t i)) →
      counted_loop body is s = .ok (is.foldl g s) := by
  intro is
  induction is with
  | nil => intro s _; rfl
  | cons i rest ih =>
    intro s h
    unfold counted_loop
    rw [h i (List.mem_cons_self _ _) s]
    exact ih _ fun j hj t => h j (List.mem_cons_of_mem _ hj) t

theorem counted_loop_inv {σ : Type} (body : σ → Nat → Except call_error σ) (Q : σ → Prop)
    (hstep : ∀ t i t1, Q t → body t i = .ok t1 → Q t1) :
    ∀ (is : List Nat) (s r : σ), Q s → counted_loop body is s = .ok r → Q r := by
  intro is
  induction is with
  | nil =>
    intro s r hs h
    unfold counted_loop at h
    cases h
    exact hs
  | cons i rest ih =>
    intro s r hs h
    unfold counted_loop at h
    cases hb : body s i with
    | ok s1 =>
      rw [hb] at h
      exact ih s1 r (hstep s i s1 hs hb) h
    | error e =>
      rw [hb] at h
      cases h

namespace dyn_patches_layer

variable {α : Type}

theorem positions_from_step {extent size stride start : Nat} (hs : 0 < stride)
    (h : start + size ≤ extent) :
    positions_from extent size stride start
      = positions_from extent size stride (start + stride) + 1 := by
  unfold positions_from
  rw [if_pos h]
  by_cases h2 : start + stride + size ≤ extent
  · rw [if_pos h2]
    have e : extent - size - start = (extent - size - (start + stride)) + stride := by omega
    rw [e, Nat.add_div_right _ hs]
  · rw [if_neg h2]
    have e : extent - size - start < stride := by omega
    rw [Nat.div_eq_of_lt e]

theorem positions_from_le (extent size stride start : Nat) :
    positions_from extent size stride start ≤ extent + 1 := by
  unfold positions_from
  split
  · have := Nat.div_le_self (extent - size - start) stride
    omega
  · omega

theorem positions_of_le {extent size stride : Nat} (h : size ≤ extent) :
    positions extent size stride = (extent - size) / stride + 1 := by
  unfold positions positions_from
  rw [if_pos (by omega)]
  rfl

theorem fill_row_ok (l : dyn_patches_layer) (input : dyn_matrix3 α) (y x : Nat)
    (p : dyn_matrix3 α) (yy : Nat) (h0 : 0 < input.dim0) (hy : y + yy < input.dim1)
    (hx : x + l.width ≤ input.dim2) (m1 : input.dim1 < SIZE_MOD) (m2 : input.dim2 < SIZE_MOD) :
    fill_row l input y x p yy = .ok (window_row l input y x p yy) := by
  unfold fill_row window_row
  refine counted_loop_ok _ (fun p xx => p.set 0 yy xx (input.val 0 (y + yy) (x + xx)))
    (List.range l.width) p ?_
  intro xx hxx t
  have hlt : xx < l.width := List.mem_range.mp hxx
  rw [size_add_of_lt (by omega : y + yy < SIZE_MOD),
    size_add_of_lt (by omega : x + xx < SIZE_MOD)]
  unfold dyn_matrix3.read
  rw [if_pos ⟨h0, hy, by omega⟩]

theorem make_patch_ok [Inhabited α] (l : dyn_patches_layer) (input : dyn_matrix3 α)
    (y x : Nat) (h0 : 0 < input.dim0) (hy : y + l.height ≤ input.dim1)
    (hx : x + l.width ≤ input.dim2) (m1 : input.dim1 < SIZE_MOD) (m2 : input.dim2 < SIZE_MOD) :
    make_patch l input y x = .ok (window l input y x) := by
  unfold make_patch window
  refine counted_loop_ok _ (fun p yy => window_row l input y x p yy)
    (List.range l.height) _ ?_
  intro yy hyy t
  have hlt : yy < l.height := List.mem_range.mp hyy
  exact fill_row_ok l input y x t yy h0 (by omega) hx m1 m2

theorem fill_row_keeps_dims (l : dyn_patches_layer) (input : dyn_matrix3 α) (y x : Nat)
    (d0 d1 d2 : Nat) (p r : dyn_matrix3 α) (yy : Nat)
    (hp : p.dim0 = d0 ∧ p.dim1 = d1 ∧ p.dim2 = d2)
    (h : fill_row l input y x p yy = .ok r) : r.dim0 = d0 ∧ r.dim1 = d1 ∧ r.dim2 = d2 := by
  unfold fill_row at h
  refine counted_loop_inv _ (fun q => q.dim0 = d0 ∧ q.dim1 = d1 ∧ q.dim2 = d2) ?_ _ p r hp h
  intro t i t1 ht hb
  cases hr : input.read 0 (size_add y yy) (size_add x i) with
  | ok v =>
    simp only [hr] at hb
    cases hb
    exact ht
  | error e =>
    simp only [hr] at hb
    cases hb

theorem make_patch_dims [Inhabited α] (l : dyn_patches_layer) (input : dyn_matrix3 α)
    (y x : Nat) (p : dyn_matrix3 α) (h : make_patch l input y x = .ok p) :
    p.dim0 = 1 ∧ p.dim1 = l.height ∧ p.dim2 = l.width := by
  unfold make_patch at h
  refine counted_loop_inv _ (fun q => q.dim0 = 1 ∧ q.dim1 = l.height ∧ q.dim2 = l.width) ?_ _
    _ p ⟨rfl, rfl, rfl⟩ h
  intro t i t1 ht hb
  exact fill_row_keeps_dims l input y x _ _ _ t t1 i ht hb

theorem col_loop_eq [Inhabited α] (l : dyn_patches_layer) (input : dyn_matrix3 α) (y : Nat)
    (hs : 0 < l.h_stride) (h0 : 0 < input.dim0) (hy : y + l.height ≤ input.dim1)
    (m1 : input.dim1 < SIZE_MOD) (m2 : input.dim2 + l.h_stride < SIZE_MOD) :
    ∀ (fuel x : Nat) (h_a : List (dyn_matrix3 α)),
      x + l.width < SIZE_MOD →
      positions_from input.dim2 l.width l.h_stride x < fuel →
      col_loop l input y fuel x h_a
        = .ok (h_a ++ (List.range (positions_from input.dim2 l.width l.h_stride x)).map
            fun c => window l input y (x + c * l.h_stride)) := by
  intro fuel
  induction fuel with
  | zero => intro x h_a _ h; omega
  | succ fuel ih =>
    intro x h_a hxm h
    unfold col_loop
    rw [size_add_of_lt hxm]
    by_cases hx : x + l.width ≤ input.dim2
    · rw [if_pos hx, make_patch_ok l input y x h0 hy hx m1 (by omega)]
      have hstep := positions_from_step hs hx
      simp only
      rw [size_add_of_lt (by omega : x + l.h_stride < SIZE_MOD),
        ih (x + l.h_stride) _ (by omega) (by omega), hstep, List.range_succ_eq_map]
      simp only [List.map_cons, List.map_map, List.append_assoc, List.singleton_append,
        Nat.zero_mul, Nat.add_zero]
      congr 3
      apply List.map_congr_left
      intro c _
      simp only [Function.comp, Nat.succ_eq_add_one, Nat.add_mul, Nat.one_mul]
      congr 1
      omega
    · rw [if_neg hx]
      have hz : positions_from input.dim2 l.width l.h_stride x = 0 := by
        unfold positions_from
        rw [if_neg hx]
      rw [hz]
      simp

theorem row_loop_eq [Inhabited α] (l : dyn_patches_layer) (input : dyn_matrix3 α)
    (colFuel : Nat) (hv : 0 < l.v_stride) (hs : 0 < l.h_stride) (h0 : 0 < input.dim0)
    (m1 : input.dim1 + l.v_stride < SIZE_MOD) (m2 : input.dim2 + l.h_stride < SIZE_MOD)
    (mw : l.width < SIZE_MOD)
    (hc : positions input.dim2 l.width l.h_stride < colFuel) :
    ∀ (fuel y : Nat) (h_a : List (dyn_matrix3 α)),
      y + l.height < SIZE_MOD →
      positions_from input.dim1 l.height l.v_stride y < fuel →
      row_loop l input colFuel fuel y h_a
        = .ok (h_a ++ (List.range (positions_from input.dim1 l.height l.v_stride y)).flatMap
            fun r => (List.range (positions input.dim2 l.width l.h_stride)).map
              fun c => window l input (y + r * l.v_stride) (c * l.h_stride)) := by
  intro fuel
  induction fuel with
  | zero => intro y h_a _ h; omega
  | succ fuel ih =>
    intro y h_a hym h
    unfold row_loop
    rw [size_add_of_lt hym]
    by_cases hy : y + l.height ≤ input.dim1
    · rw [if_pos hy]
      have hstep := positions_from_step hv hy
      have hcol := col_loop_eq l input y hs h0 hy (by omega) m2 colFuel 0 h_a (by omega) hc
      rw [hcol]
      simp only
      rw [size_add_of_lt (by omega : y + l.v_stride < SIZE_MOD),
        ih (y + l.v_stride) _ (by omega) (by omega), hstep, List.range_succ_eq_map]
      simp only [List.flatMap_cons, List.flatMap_map, List.append_assoc, Nat.zero_mul,
        Nat.add_zero, Nat.zero_add]
      have e : ∀ r : Nat, y + l.v_stride + r * l.v_stride = y + r.succ * l.v_stride := by
        intro r
        rw [Nat.succ_mul]; omega
      simp only [e]
      rfl
    · rw [if_neg hy]
      have hz : positions_from input.dim1 l.height l.v_stride y = 0 := by
        unfold positions_from
        rw [if_neg hy]
      rw [hz]
      simp

theorem activate_hidden_eq [Inhabited α] (l : dyn_patches_layer) (fuel : Nat)
    (h_a : List (dyn_matrix3 α)) (input : dyn_matrix3 α)
    (hv : 0 < l.v_stride) (hs : 0 < l.h_stride) (hc : input.dim0 = 1)
    (m1 : input.dim1 + l.v_stride < SIZE_MOD) (m2 : input.dim2 + l.h_stride < SIZE_MOD)
    (mh : l.height < SIZE_MOD) (mw : l.width < SIZE_MOD)
    (hfuel : input.dim1 + input.dim2 + 2 ≤ fuel) :
    activate_hidden l fuel h_a input = .ok (patches l input) := by
  unfold activate_hidden
  rw [if_pos hc]
  have h1 := positions_from_le input.dim1 l.height l.v_stride 0
  have h2 := positions_from_le input.dim2 l.width l.h_stride 0
  rw [row_loop_eq l input fuel hv hs (by omega) m1 m2 mw (by unfold positions; omega) fuel 0 _
    (by omega) (by omega)]
  simp [vector_clear, patches, positions]

theorem length_flatMap_range {β : Type} (f : Nat → List β) (C : Nat)
    (hf : ∀ r, (f r).length = C) :
    ∀ R : Nat, ((List.range R).flatMap f).length = R * C := by
  intro R
  induction R with
  | zero => simp
  | succ n ih =>
    rw [List.range_succ, List.flatMap_append, List.length_append, ih,
      List.flatMap_singleton, hf, Nat.succ_mul]

theorem index_flatMap_range {β : Type} (f : Nat → List β) (C : Nat)
    (hf : ∀ r, (f r).length = C) :
    ∀ (R r c : Nat), r < R → c < C →
      ((List.range R).flatMap f)[r * C + c]? = (f r)[c]? := by
  intro R
  induction R with
  | zero => intro r c hr; omega
  | succ n ih =>
    intro r c hr hc
    rw [List.range_succ, List.flatMap_append, List.flatMap_singleton]
    have hlen := length_flatMap_range f C hf n
    by_cases hrn : r < n
    · have hlt : r * C + c < ((List.range n).flatMap f).length := by
        rw [hlen]
        calc r * C + c < r * C + C := by omega
          _ = (r + 1) * C := by rw [Nat.succ_mul]
          _ ≤ n * C := Nat.mul_le_mul_right C hrn
      rw [List.getElem?_append_left hlt]
      exact ih r c hrn hc
    · have hrn2 : r = n := by omega
      subst hrn2
      have hge : ((List.range r).flatMap f).length ≤ r * C + c := by
        rw [hlen]; omega
      rw [List.getElem?_append_right hge, hlen]
      congr 1
      omega

theorem set_dims (m : dyn_matrix3 α) (c y x : Nat) (v : α) :
    (m.set c y x v).dim0 = m.dim0 ∧ (m.set c y x v).dim1 = m.dim1
      ∧ (m.set c y x v).dim2 = m.dim2 :=
  ⟨rfl, rfl, rfl⟩

theorem foldl_set_dims (yy : Nat) (g : Nat → α) :
    ∀ (xs : List Nat) (p : dyn_matrix3 α),
      (xs.foldl (fun q xx => q.set 0 yy xx (g xx)) p).dim0 = p.dim0
      ∧ (xs.foldl (fun q xx => q.set 0 yy xx (g xx)) p).dim1 = p.dim1
      ∧ (xs.foldl (fun q xx => q.set 0 yy xx (g xx)) p).dim2 = p.dim2 := by
  intro xs
  induction xs with
  | nil => intro p; exact ⟨rfl, rfl, rfl⟩
  | cons a xs ih =>
    intro p
    rw [List.foldl_cons]
    exact ih _

theorem foldl_set_val (yy : Nat) (g : Nat → α) :
    ∀ (xs : List Nat) (p : dyn_matrix3 α) (c y1 x1 : Nat),
      (xs.foldl (fun q xx => q.set 0 yy xx (g xx)) p).val c y1 x1
        = if c = 0 ∧ y1 = yy ∧ x1 ∈ xs then g x1 else p.val c y1 x1 := by
  intro xs
  induction xs with
  | nil => intro p c y1 x1; simp
  | cons a xs ih =>
    intro p c y1 x1
    rw [List.foldl_cons, ih]
    by_cases h1 : c = 0 ∧ y1 = yy ∧ x1 ∈ xs
    · rw [if_pos h1, if_pos ⟨h1.1, h1.2.1, List.mem_cons_of_mem _ h1.2.2⟩]
    · rw [if_neg h1]
      by_cases h2 : c = 0 ∧ y1 = yy ∧ x1 = a
      · rw [if_pos ⟨h2.1, h2.2.1, by rw [h2.2.2]; exact List.mem_cons_self _ _⟩]
        simp only [dyn_matrix3.set]
        rw [if_pos h2, h2.2.2]
      · have h3 : ¬ (c = 0 ∧ y1 = yy ∧ x1 ∈ a :: xs) := by
          rintro ⟨hc, hy, hx⟩
          rcases List.mem_cons.mp hx with hx | hx
          · exact h2 ⟨hc, hy, hx⟩
          · exact h1 ⟨hc, hy, hx⟩
        rw [if_neg h3]
        simp only [dyn_matrix3.set]
        rw [if_neg h2]

theorem window_row_dims (l : dyn_patches_layer) (input : dyn_matrix3 α) (y x : Nat)
    (p : dyn_matrix3 α) (yy : Nat) :
    (window_row l input y x p yy).dim0 = p.dim0 ∧ (window_row l input y x p yy).dim1 = p.dim1
      ∧ (window_row l input y x p yy).dim2 = p.dim2 :=
  foldl_set_dims yy (fun xx => input.val 0 (y + yy) (x + xx)) (List.range l.width) p

theorem window_row_val (l : dyn_patches_layer) (input : dyn_matrix3 α) (y x : Nat)
    (p : dyn_matrix3 α) (yy c y1 x1 : Nat) :
    (window_row l input y x p yy).val c y1 x1
      = if c = 0 ∧ y1 = yy ∧ x1 < l.width then input.val 0 (y + yy) (x + x1)
        else p.val c y1 x1 := by
  unfold window_row
  rw [foldl_set_val yy (fun xx => input.val 0 (y + yy) (x + xx))]
  simp only [List.mem_range]

theorem foldl_window_row_dims (l : dyn_patches_layer) (input : dyn_matrix3 α) (y x : Nat) :
    ∀ (ys : List Nat) (p : dyn_matrix3 α),
      (ys.foldl (fun q yy => window_row l input y x q yy) p).dim0 = p.dim0
      ∧ (ys.foldl (fun q yy => window_row l input y x q yy) p).dim1 = p.dim1
      ∧ (ys.foldl (fun q yy => window_row l input y x q yy) p).dim2 = p.dim2 := by
  intro ys
  induction ys with
  | nil => intro p; exact ⟨rfl, rfl, rfl⟩
  | cons a ys ih =>
    intro p
    rw [List.foldl_cons]
    obtain ⟨h0, h1, h2⟩ := ih (window_row l input y x p a)
    obtain ⟨g0, g1, g2⟩ := window_row_dims l input y x p a
    exact ⟨h0.trans g0, h1.trans g1, h2.trans g2⟩

theorem foldl_window_row_val (l : dyn_patches_layer) (input : dyn_matrix3 α) (y x : Nat) :
    ∀ (ys : List Nat) (p : dyn_matrix3 α) (c y1 x1 : Nat),
      (ys.foldl (fun q yy => window_row l input y x q yy) p).val c y1 x1
        = if c = 0 ∧ y1 ∈ ys ∧ x1 < l.width then input.val 0 (y + y1) (x + x1)
          else p.val c y1 x1 := by
  intro ys
  induction ys with
  | nil => intro p c y1 x1; simp
  | cons a ys ih =>
    intro p c y1 x1
    rw [List.foldl_cons, ih, window_row_val]
    by_cases h1 : c = 0 ∧ y1 ∈ ys ∧ x1 < l.width
    · rw [if_pos h1, if_pos ⟨h1.1, List.mem_cons_of_mem _ h1.2.1, h1.2.2⟩]
    · rw [if_neg h1]
      by_cases h2 : c = 0 ∧ y1 = a ∧ x1 < l.width
      · rw [if_pos h2, if_pos ⟨h2.1, by rw [h2.2.1]; exact List.mem_cons_self _ _, h2.2.2⟩,
          h2.2.1]
      · have h3 : ¬ (c = 0 ∧ y1 ∈ a :: ys ∧ x1 < l.width) := by
          rintro ⟨hc, hy, hx⟩
          rcases List.mem_cons.mp hy with hy | hy
          · exact h2 ⟨hc, hy, hx⟩
          · exact h1 ⟨hc, hy, hx⟩
        rw [if_neg h2, if_neg h3]

theorem window_dims [Inhabited α] (l : dyn_patches_layer) (input : dyn_matrix3 α)
    (y x : Nat) :
    (window l input y x).dim0 = 1 ∧ (window l input y x).dim1 = l.height
      ∧ (window l input y x).dim2 = l.width :=
  foldl_window_row_dims l input y x (List.range l.height) (dyn_matrix3.create 1 l.height l.width)

theorem window_val [Inhabited α] (l : dyn_patches_layer) (input : dyn_matrix3 α)
    (y x yy xx : Nat) (hy : yy < l.height) (hx : xx < l.width) :
    (window l input y x).val 0 yy xx = input.val 0 (y + yy) (x + xx) := by
  unfold window
  rw [foldl_window_row_val, if_pos ⟨rfl, List.mem_range.mpr hy, hx⟩]

theorem positions_bound {extent size stride r : Nat} (h : r < positions extent size stride) :
    r * stride + size ≤ extent := by
  unfold positions positions_from at h
  split at h
  · have h1 : r ≤ (extent - size - 0) / stride := by omega
    have h2 : r * stride ≤ (extent - size - 0) / stride * stride :=
      Nat.mul_le_mul_right stride h1
    have h3 := Nat.div_mul_le_self (extent - size - 0) stride
    omega
  · omega

theorem patches_length [Inhabited α] (l : dyn_patches_layer) (input : dyn_matrix3 α) :
    (patches l input).length
      = positions input.dim1 l.height l.v_stride * positions input.dim2 l.width l.h_stride := by
  unfold patches
  exact length_flatMap_range _ _ (fun r => by simp) _

theorem patches_index [Inhabited α] (l : dyn_patches_layer) (input : dyn_matrix3 α)
    (r c : Nat) (hr : r < positions input.dim1 l.height l.v_stride)
    (hc : c < positions input.dim2 l.width l.h_stride) :
    (patches l input)[r * positions input.dim2 l.width l.h_stride + c]?
      = some (window l input (r * l.v_stride) (c * l.h_stride)) := by
  unfold patches
  rw [index_flatMap_range _ _ (fun r => by simp) _ r c hr hc]
  rw [List.getElem?_map, List.getElem?_range hc]
  rfl

theorem col_loop_all [Inhabited α] (l : dyn_patches_layer) (input : dyn_matrix3 α) (y : Nat)
    (P : dyn_matrix3 α → Prop) (hP : ∀ y x p, make_patch l input y x = .ok p → P p) :
    ∀ (fuel x : Nat) (h_a out : List (dyn_matrix3 α)),
      (∀ p ∈ h_a, P p) → col_loop l input y fuel x h_a = .ok out → ∀ p ∈ out, P p := by
  intro fuel
  induction fuel with
  | zero =>
    intro x h_a out _ h
    simp [col_loop] at h
  | succ fuel ih =>
    intro x h_a out hall h
    unfold col_loop at h
    split at h
    · cases hm : make_patch l input y x with
      | error e =>
        rw [hm] at h
        cases h
      | ok q =>
        rw [hm] at h
        refine ih _ _ out ?_ h
        intro p hp
        rcases List.mem_append.mp hp with hp | hp
        · exact hall p hp
        · rw [List.mem_singleton.mp hp]
          exact hP y x q hm
    · cases h
      exact hall

theorem row_loop_all [Inhabited α] (l : dyn_patches_layer) (input : dyn_matrix3 α)
    (colFuel : Nat) (P : dyn_matrix3 α → Prop)
    (hP : ∀ y x p, make_patch l input y x = .ok p → P p) :
    ∀ (fuel y : Nat) (h_a out : List (dyn_matrix3 α)),
      (∀ p ∈ h_a, P p) → row_loop l input colFuel fuel y h_a = .ok out → ∀ p ∈ out, P p := by
  intro fuel
  induction fuel with
  | zero =>
    intro y h_a out _ h
    simp [row_loop] at h
  | succ fuel ih =>
    intro y h_a out hall h
    unfold row_loop at h
    split at h
    · cases hcol : col_loop l input y colFuel 0 h_a with
      | error e =>
        rw [hcol] at h
        cases h
      | ok h_a1 =>
        rw [hcol] at h
        exact ih _ h_a1 out (col_loop_all l input y P hP colFuel 0 h_a h_a1 hall hcol) h
    · cases h
      exact hall

theorem activate_hidden_all [Inhabited α] (l : dyn_patches_layer) (input : dyn_matrix3 α)
    (P : dyn_matrix3 α → Prop) (hP : ∀ y x p, make_patch l input y x = .ok p → P p)
    (fuel : Nat) (h_a out : List (dyn_matrix3 α))
    (h : activate_hidden l fuel h_a input = .ok out) : ∀ p ∈ out, P p := by
  unfold activate_hidden at h
  split at h
  · exact row_loop_all l input fuel P hP fuel 0 _ out (by simp [vector_clear]) h
  · cases h

end dyn_patches_layer

/-! ## Claims on dyn_patches_layer::activate_hidden -/

theorem wrap_layer_run (fuel : Nat) :
    sample.wrap_layer.activate_hidden (fuel + 2) [] sample.small_image
      = .error .out_of_bounds :=
  rfl

theorem wrap_layer_no_result (fuel : Nat) (out : List (dyn_matrix3 Nat)) :
    sample.wrap_layer.activate_hidden fuel [] sample.small_image ≠ .ok out := by
  intro h
  rcases fuel with _ | _ | n
  · have e : sample.wrap_layer.activate_hidden 0 [] sample.small_image
        = .error .out_of_fuel := rfl
    rw [e] at h
    cases h
  · have e : sample.wrap_layer.activate_hidden (0 + 1) [] sample.small_image
        = .error .out_of_fuel := rfl
    rw [e] at h
    cases h
  · rw [wrap_layer_run n] at h
    cases h

/-- C1, as stated, fails when a loop counter wraps: after `init_layer(2, 2, 2^64 - 1, 1)` on a
`1 x 2 x 2` input (positive strides, `H >= height`, `W >= width`) the claimed count is 1, but
`y += v_stride` gives `y = 2^64 - 1`, `y + height` wraps to 1 and passes the loop test, and the
call reads outside the input (whatever the fuel, it does not return one patch). -/
theorem activate_hidden_patch_count_wraps :
    0 < sample.wrap_layer.v_stride ∧ 0 < sample.wrap_layer.h_stride
    ∧ sample.small_image.dim0 = 1
    ∧ sample.wrap_layer.height ≤ sample.small_image.dim1
    ∧ sample.wrap_layer.width ≤ sample.small_image.dim2
    ∧ ((sample.small_image.dim1 - sample.wrap_layer.height) / sample.wrap_layer.v_stride + 1)
        * ((sample.small_image.dim2 - sample.wrap_layer.width) / sample.wrap_layer.h_stride + 1)
        = 1
    ∧ (∀ fuel, sample.wrap_layer.activate_hidden (fuel + 2) [] sample.small_image
        = .error .out_of_bounds)
    ∧ ∀ fuel, ¬ ∃ out, sample.wrap_layer.activate_hidden fuel [] sample.small_image = .ok out
        ∧ out.length = 1 := by
  refine ⟨by decide, by decide, rfl, by decide, by decide, by decide, wrap_layer_run, ?_⟩
  rintro fuel ⟨out, h, _⟩
  exact wrap_layer_no_result fuel out h

/-- C1 amended: for positive strides with `H + v_stride < 2^64` and `W + h_stride < 2^64` (no
loop counter wraps) and a one-channel input at least as large as the patch, `activate_hidden`
returns (given fuel for both loops) and emits exactly
`((H - height) / v_stride + 1) * ((W - width) / h_stride + 1)` patches. -/
theorem activate_hidden_patch_count {α : Type} [Inhabited α] (l : dyn_patches_layer)
    (fuel : Nat) (h_a : List (dyn_matrix3 α)) (input : dyn_matrix3 α)
    (hv : 0 < l.v_stride) (hh : 0 < l.h_stride) (hc : input.dim0 = 1)
    (hH : l.height ≤ input.dim1) (hW : l.width ≤ input.dim2)
    (m1 : input.dim1 + l.v_stride < SIZE_MOD) (m2 : input.dim2 + l.h_stride < SIZE_MOD)
    (hfuel : input.dim1 + input.dim2 + 2 ≤ fuel) :
    ∃ out, l.activate_hidden fuel h_a input = .ok out ∧
      out.length = ((input.dim1 - l.height) / l.v_stride + 1)
        * ((input.dim2 - l.width) / l.h_stride + 1) := by
  refine ⟨dyn_patches_layer.patches l input,
    dyn_patches_layer.activate_hidden_eq l fuel h_a input hv hh hc m1 m2 (by omega) (by omega)
      hfuel, ?_⟩
  rw [dyn_patches_layer.patches_length, dyn_patches_layer.positions_of_le hH,
    dyn_patches_layer.positions_of_le hW]

/-- Witness of the amended C1: the `1 x 3 x 5` sample image with 2 x 2 patches and strides 1
and 2. -/
theorem activate_hidden_patch_count_witness :
    ∃ out, sample.patch_layer.activate_hidden 10 [] sample.image = .ok out ∧
      out.length = ((3 - 2) / 1 + 1) * ((5 - 2) / 2 + 1) :=
  activate_hidden_patch_count sample.patch_layer 10 [] sample.image
    (by decide) (by decide) rfl (by decide) (by decide) (by decide) (by decide) (by decide)

/-- C2, as stated, fails when a loop counter wraps: after `init_layer(2, 2, 2^64 - 1, 1)` on a
`1 x 2 x 2` input the row loop reaches `y = 2^64 - 1`, its test `y + height <= H` holds after
wrapping, and the patch at that position reads row `2^64 - 1`, outside the input. -/
theorem activate_hidden_row_major_wraps :
    0 < sample.wrap_layer.v_stride ∧ 0 < sample.wrap_layer.h_stride
    ∧ sample.small_image.dim0 = 1
    ∧ size_add 0 sample.wrap_layer.v_stride = 18446744073709551615
    ∧ size_add 18446744073709551615 sample.wrap_layer.height ≤ sample.small_image.dim1
    ∧ sample.small_image.read 0 (size_add 18446744073709551615 0) (size_add 0 0)
        = .error .out_of_bounds
    ∧ sample.wrap_layer.make_patch sample.small_image 18446744073709551615 0
        = .error .out_of_bounds
    ∧ ∀ fuel, ¬ ∃ out, sample.wrap_layer.activate_hidden fuel [] sample.small_image
        = .ok out := by
  refine ⟨by decide, by decide, rfl, by decide, by decide, rfl, rfl, ?_⟩
  rintro fuel ⟨out, h⟩
  exact wrap_layer_no_result fuel out h

/-- C2 amended: for positive strides with `H + v_stride < 2^64` and `W + h_stride < 2^64`, a
patch size of `size_t` values and a one-channel input, the patches come out in row-major order
of window position: with `R` row positions and `C` column positions there are `R * C` patches,
the patch at index `r * C + c` has shape `1 x height x width`, its element `(0, yy, xx)` is
`input(0, r * v_stride + yy, c * h_stride + xx)`, and that index lies inside the input. -/
theorem activate_hidden_row_major {α : Type} [Inhabited α] (l : dyn_patches_layer)
    (fuel : Nat) (h_a : List (dyn_matrix3 α)) (input : dyn_matrix3 α)
    (hv : 0 < l.v_stride) (hh : 0 < l.h_stride) (hc : input.dim0 = 1)
    (m1 : input.dim1 + l.v_stride < SIZE_MOD) (m2 : input.dim2 + l.h_stride < SIZE_MOD)
    (mh : l.height < SIZE_MOD) (mw : l.width < SIZE_MOD)
    (hfuel : input.dim1 + input.dim2 + 2 ≤ fuel) :
    ∃ out, l.activate_hidden fuel h_a input = .ok out ∧
      out.length = dyn_patches_layer.positions input.dim1 l.height l.v_stride
        * dyn_patches_layer.positions input.dim2 l.width l.h_stride ∧
      ∀ r c, r < dyn_patches_layer.positions input.dim1 l.height l.v_stride →
        c < dyn_patches_layer.positions input.dim2 l.width l.h_stride →
        ∃ p, out[r * dyn_patches_layer.positions input.dim2 l.width l.h_stride + c]? = some p ∧
          p.dim0 = 1 ∧ p.dim1 = l.height ∧ p.dim2 = l.width ∧
          ∀ yy xx, yy < l.height → xx < l.width →
            p.val 0 yy xx = input.val 0 (r * l.v_stride + yy) (c * l.h_stride + xx) ∧
            r * l.v_stride + yy < input.dim1 ∧ c * l.h_stride + xx < input.dim2 := by
  refine ⟨dyn_patches_layer.patches l input,
    dyn_patches_layer.activate_hidden_eq l fuel h_a input hv hh hc m1 m2 mh mw hfuel,
    dyn_patches_layer.patches_length l input, ?_⟩
  intro r c hr hcol
  refine ⟨_, dyn_patches_layer.patches_index l input r c hr hcol, ?_⟩
  obtain ⟨d0, d1, d2⟩ := dyn_patches_layer.window_dims l input (r * l.v_stride)
    (c * l.h_stride)
  refine ⟨d0, d1, d2, ?_⟩
  intro yy xx hy hx
  have b1 := dyn_patches_layer.positions_bound hr
  have b2 := dyn_patches_layer.positions_bound hcol
  exact ⟨dyn_patches_layer.window_val l input _ _ yy xx hy hx, by omega, by omega⟩

/-- Witness of the amended C2: the sample image; the patch at index `1 * 2 + 1` starts at
`(1, 2)`. -/
theorem activate_hidden_row_major_witness :
    ∃ out, sample.patch_layer.activate_hidden 10 [] sample.image = .ok out ∧
      out.length = dyn_patches_layer.positions 3 2 1 * dyn_patches_layer.positions 5 2 2 ∧
      ∀ r c, r < dyn_patches_layer.positions 3 2 1 → c < dyn_patches_layer.positions 5 2 2 →
        ∃ p, out[r * dyn_patches_layer.positions 5 2 2 + c]? = some p ∧
          p.dim0 = 1 ∧ p.dim1 = 2 ∧ p.dim2 = 2 ∧
          ∀ yy xx, yy < 2 → xx < 2 →
            p.val 0 yy xx = sample.image.val 0 (r * 1 + yy) (c * 2 + xx) ∧
            r * 1 + yy < 3 ∧ c * 2 + xx < 5 :=
  activate_hidden_row_major sample.patch_layer 10 [] sample.image
    (by decide) (by decide) rfl (by decide) (by decide) (by decide) (by decide) (by decide)

/-- C3: `activate_hidden` clears its output sequence first: the result does not depend on the
prior content of `h_a`, and a second call on the output of the first yields the same
sequence again. -/
theorem activate_hidden_clears {α : Type} [Inhabited α] (l : dyn_patches_layer) (fuel : Nat)
    (input : dyn_matrix3 α) (h_a h_a2 : List (dyn_matrix3 α)) :
    l.activate_hidden fuel h_a input = l.activate_hidden fuel h_a2 input ∧
      ∀ out, l.activate_hidden fuel h_a input = .ok out →
        l.activate_hidden fuel out input = .ok out := by
  have key : ∀ a b : List (dyn_matrix3 α),
      l.activate_hidden fuel a input = l.activate_hidden fuel b input := by
    intro a b
    unfold dyn_patches_layer.activate_hidden vector_clear
    rfl
  refine ⟨key h_a h_a2, ?_⟩
  intro out h
  rw [key out h_a]
  exact h

/-- Witness of C3: the sample call returns, so the second call has an output to start from. -/
theorem activate_hidden_clears_witness :
    (∃ out, sample.patch_layer.activate_hidden 10 [] sample.image = .ok out) ∧
    (sample.patch_layer.activate_hidden 10 [] sample.image
        = sample.patch_layer.activate_hidden 10 [sample.image] sample.image ∧
      ∀ out, sample.patch_layer.activate_hidden 10 [] sample.image = .ok out →
        sample.patch_layer.activate_hidden 10 out sample.image = .ok out) :=
  ⟨⟨_, dyn_patches_layer.activate_hidden_eq sample.patch_layer 10 [] sample.image
      (by decide) (by decide) rfl (by decide) (by decide) (by decide) (by decide) (by decide)⟩,
    activate_hidden_clears sample.patch_layer 10 sample.image [] [sample.image]⟩

/-! ## Claims on layer_traits -/

/-- C4: the composite trait queries are functions of the base flags only:
`is_multiplex_layer` is `is_augment_layer` or `is_patches_layer`, `has_same_type` is
`is_transform_layer` or `is_augment_layer`, `is_trained` is `is_neural_layer` and
`is_pretrained` is `is_rbm_layer`, each base query returning its stored flag. -/
theorem composite_traits (t : layer_base_traits) :
    (layer_traits.is_multiplex_layer t
        = (layer_traits.is_augment_layer t || layer_traits.is_patches_layer t)
      ∧ layer_traits.has_same_type t
        = (layer_traits.is_transform_layer t || layer_traits.is_augment_layer t)
      ∧ layer_traits.is_trained t = layer_traits.is_neural_layer t
      ∧ layer_traits.is_pretrained t = layer_traits.is_rbm_layer t)
    ∧ (layer_traits.is_multiplex_layer t = (t.is_augment || t.is_patches)
      ∧ layer_traits.has_same_type t = (t.is_transform || t.is_augment)
      ∧ layer_traits.is_trained t = t.is_neural
      ∧ layer_traits.is_pretrained t = t.is_rbm) :=
  ⟨⟨rfl, rfl, rfl, rfl⟩, ⟨rfl, rfl, rfl, rfl⟩⟩

/-! ## Claims on the layer dimensions -/

theorem mod_mul_three (a b c M : Nat) : ((a * b) % M * c) % M = (a * b * c) % M :=
  Nat.mod_mul_mod

theorem size_mul_mul (a b c : Nat) : size_mul (size_mul a b) c = (a * b * c) % SIZE_MOD :=
  mod_mul_three a b c SIZE_MOD

theorem size_mul_of_lt {a b : Nat} (h : a * b < SIZE_MOD) : size_mul a b = a * b :=
  Nat.mod_eq_of_lt h

theorem size_sub_one_of_pos {a b : Nat} (h1 : 1 ≤ a + b) (h2 : a + b ≤ SIZE_MOD) :
    size_sub (size_add a b) 1 = a + b - 1 := by
  unfold size_sub size_add
  unfold SIZE_MOD at *
  have e : (2 : Nat) ^ 64 = 18446744073709551616 := by norm_num
  rw [e] at h2 ⊢
  omega

theorem size_sub_one (a b : Nat) :
    size_sub (size_add a b) 1 = (a + b + (SIZE_MOD - 1)) % SIZE_MOD := by
  unfold size_sub size_add
  unfold SIZE_MOD
  have e : (2 : Nat) ^ 64 = 18446744073709551616 := by norm_num
  rw [e]
  omega

theorem size_sub_add_one {a b : Nat} (h1 : 1 ≤ b) (hb : b ≤ a) (ha : a < SIZE_MOD) :
    size_add (size_sub a b) 1 = a - b + 1 := by
  unfold size_sub size_add
  unfold SIZE_MOD at *
  have e : (2 : Nat) ^ 64 = 18446744073709551616 := by norm_num
  rw [e] at ha ⊢
  omega

theorem etl_size_three (a b c : Nat) : etl_size [a, b, c] = (a * b * c) % SIZE_MOD := by
  unfold etl_size
  rw [List.prod_cons, List.prod_cons, List.prod_cons, List.prod_nil, Nat.mul_one,
    Nat.mul_assoc]

/-- C5, as stated, fails where the `std::size_t` arithmetic wraps: for the descriptor
`<1, 2^32, 2^32, 1, 1, 1>` `input_size()` and `output_size()` are 0 while `NC * NV1 * NV2` and
`K * NH1 * NH2` are `2^64`, and for `<1, 0, 0, 1, 0, 0>` `NH1` is `2^64 - 1`, not
`0 + 0 - 1`. -/
theorem deconv_extents_wrap :
    deconv_layer.input_size sample.deconv_wrap = 0
    ∧ sample.deconv_wrap.NC * sample.deconv_wrap.NV1 * sample.deconv_wrap.NV2
        = 18446744073709551616
    ∧ deconv_layer.NH1 sample.deconv_wrap = 4294967296
    ∧ deconv_layer.NH2 sample.deconv_wrap = 4294967296
    ∧ deconv_layer.output_size sample.deconv_wrap = 0
    ∧ sample.deconv_wrap.K * deconv_layer.NH1 sample.deconv_wrap
        * deconv_layer.NH2 sample.deconv_wrap = 18446744073709551616
    ∧ deconv_layer.NH1 sample.deconv_zero = 18446744073709551615
    ∧ ((deconv_layer.NH1 sample.deconv_zero : Nat) : Int)
        ≠ (sample.deconv_zero.NV1 : Int) + (sample.deconv_zero.NW1 : Int) - 1 := by
  refine ⟨by decide, by decide, by decide, by decide, by decide, by decide, by decide, ?_⟩
  have e : deconv_layer.NH1 sample.deconv_zero = 18446744073709551615 := by decide
  rw [e]
  decide

/-- C5 amended: for every `deconv_layer` descriptor `NH1`, `NH2`, `input_size()` and
`output_size()` are `NV1 + NW1 - 1`, `NV2 + NW2 - 1`, `NC * NV1 * NV2` and `K * NH1 * NH2`
computed modulo `2^64`; `NH1 = NV1 + NW1 - 1` and `NH2 = NV2 + NW2 - 1` hold as integers when
`1 <= NV + NW <= 2^64` along the axis, and `input_size()`, `output_size()` are the integer
products when these are below `2^64`. -/
theorem deconv_extents (d : deconv_desc) :
    (deconv_layer.NH1 d = (d.NV1 + d.NW1 + (SIZE_MOD - 1)) % SIZE_MOD
      ∧ deconv_layer.NH2 d = (d.NV2 + d.NW2 + (SIZE_MOD - 1)) % SIZE_MOD
      ∧ deconv_layer.input_size d = (d.NC * d.NV1 * d.NV2) % SIZE_MOD
      ∧ deconv_layer.output_size d
          = (d.K * deconv_layer.NH1 d * deconv_layer.NH2 d) % SIZE_MOD)
    ∧ (1 ≤ d.NV1 + d.NW1 → d.NV1 + d.NW1 ≤ SIZE_MOD →
        deconv_layer.NH1 d = d.NV1 + d.NW1 - 1)
    ∧ (1 ≤ d.NV2 + d.NW2 → d.NV2 + d.NW2 ≤ SIZE_MOD →
        deconv_layer.NH2 d = d.NV2 + d.NW2 - 1)
    ∧ (d.NC * d.NV1 * d.NV2 < SIZE_MOD → deconv_layer.input_size d = d.NC * d.NV1 * d.NV2)
    ∧ (d.K * deconv_layer.NH1 d * deconv_layer.NH2 d < SIZE_MOD →
        deconv_layer.output_size d = d.K * deconv_layer.NH1 d * deconv_layer.NH2 d) := by
  have i1 : deconv_layer.input_size d = (d.NC * d.NV1 * d.NV2) % SIZE_MOD :=
    size_mul_mul _ _ _
  have o1 : deconv_layer.output_size d
      = (d.K * deconv_layer.NH1 d * deconv_layer.NH2 d) % SIZE_MOD := size_mul_mul _ _ _
  refine ⟨⟨size_sub_one _ _, size_sub_one _ _, i1, o1⟩, ?_, ?_, ?_, ?_⟩
  · intro h1 m1
    exact size_sub_one_of_pos h1 m1
  · intro h2 m2
    exact size_sub_one_of_pos h2 m2
  · intro h
    rw [i1]
    exact Nat.mod_eq_of_lt h
  · intro h
    rw [o1]
    exact Nat.mod_eq_of_lt h

/-- Witness of the amended C5: the descriptor `<1, 28, 28, 10, 9, 9>` has a `10 x 36 x 36`
output of 12960 elements and an input of 784 elements. -/
theorem deconv_extents_witness :
    deconv_layer.NH1 sample.deconv = 28 + 9 - 1 ∧ deconv_layer.NH2 sample.deconv = 28 + 9 - 1
      ∧ deconv_layer.input_size sample.deconv = 1 * 28 * 28
      ∧ deconv_layer.output_size sample.deconv = 10 * 36 * 36 :=
  ⟨(deconv_extents sample.deconv).2.1 (by decide) (by decide),
    (deconv_extents sample.deconv).2.2.1 (by decide) (by decide),
    (deconv_extents sample.deconv).2.2.2.1 (by decide),
    (deconv_extents sample.deconv).2.2.2.2 (by decide)⟩

/-- C6, as stated, fails where the products wrap: `init_layer(1, 2^32, 2^32, 1, 1, 1)` meets
`1 <= nw1 <= nv1` and `1 <= nw2 <= nv2`, the hidden extents are `2^32` each, and
`input_size()` and `output_size()` are 0 while `nv1 * nv2 * nc` and `nh1 * nh2 * k` are
`2^64`. -/
theorem conv_rbm_extents_wrap :
    (1 : Nat) ≤ 1 ∧ (1 : Nat) ≤ 4294967296
    ∧ (sample.crbm.init_layer 1 4294967296 4294967296 1 1 1).nh1 = 4294967296
    ∧ (sample.crbm.init_layer 1 4294967296 4294967296 1 1 1).nh2 = 4294967296
    ∧ (sample.crbm.init_layer 1 4294967296 4294967296 1 1 1).input_size = 0
    ∧ 4294967296 * 4294967296 * 1 = 18446744073709551616
    ∧ (sample.crbm.init_layer 1 4294967296 4294967296 1 1 1).output_size = 0
    ∧ (sample.crbm.init_layer 1 4294967296 4294967296 1 1 1).nh1
        * (sample.crbm.init_layer 1 4294967296 4294967296 1 1 1).nh2 * 1
        = 18446744073709551616 := by
  refine ⟨by decide, by decide, by decide, by decide, by decide, by decide, by decide,
    by decide⟩

/-- C6 amended: after `init_layer(nc, nv1, nv2, k, nw1, nw2)` with `size_t` arguments,
`1 <= nw1 <= nv1` and `1 <= nw2 <= nv2`, the hidden extents are `nh1 = nv1 - nw1 + 1` and
`nh2 = nv2 - nw2 + 1` without wrap-around (`1 <= nh1 <= nv1`, `1 <= nh2 <= nv2`),
`input_size()` is `nv1 * nv2 * nc` modulo `2^64` and `output_size()` is `nh1 * nh2 * k` modulo
`2^64`, each equal to the integer product when that is below `2^64`. -/
theorem conv_rbm_extents (l : dyn_conv_rbm) (nc nv1 nv2 k nw1 nw2 : Nat)
    (hw1 : 1 ≤ nw1) (hv1 : nw1 ≤ nv1) (hw2 : 1 ≤ nw2) (hv2 : nw2 ≤ nv2)
    (m1 : nv1 < SIZE_MOD) (m2 : nv2 < SIZE_MOD) :
    (l.init_layer nc nv1 nv2 k nw1 nw2).nh1 = nv1 - nw1 + 1
      ∧ (l.init_layer nc nv1 nv2 k nw1 nw2).nh2 = nv2 - nw2 + 1
      ∧ 1 ≤ (l.init_layer nc nv1 nv2 k nw1 nw2).nh1
      ∧ (l.init_layer nc nv1 nv2 k nw1 nw2).nh1 ≤ nv1
      ∧ 1 ≤ (l.init_layer nc nv1 nv2 k nw1 nw2).nh2
      ∧ (l.init_layer nc nv1 nv2 k nw1 nw2).nh2 ≤ nv2
      ∧ (l.init_layer nc nv1 nv2 k nw1 nw2).input_size = (nv1 * nv2 * nc) % SIZE_MOD
      ∧ (l.init_layer nc nv1 nv2 k nw1 nw2).output_size
          = ((nv1 - nw1 + 1) * (nv2 - nw2 + 1) * k) % SIZE_MOD
      ∧ (nv1 * nv2 * nc < SIZE_MOD →
          (l.init_layer nc nv1 nv2 k nw1 nw2).input_size = nv1 * nv2 * nc)
      ∧ ((nv1 - nw1 + 1) * (nv2 - nw2 + 1) * k < SIZE_MOD →
          (l.init_layer nc nv1 nv2 k nw1 nw2).output_size
            = (nv1 - nw1 + 1) * (nv2 - nw2 + 1) * k)
      ∧ (l.init_layer nc nv1 nv2 k nw1 nw2).h1_a = [k, nv1 - nw1 + 1, nv2 - nw2 + 1] := by
  have e1 : (l.init_layer nc nv1 nv2 k nw1 nw2).nh1 = nv1 - nw1 + 1 :=
    size_sub_add_one hw1 hv1 m1
  have e2 : (l.init_layer nc nv1 nv2 k nw1 nw2).nh2 = nv2 - nw2 + 1 :=
    size_sub_add_one hw2 hv2 m2
  have i1 : (l.init_layer nc nv1 nv2 k nw1 nw2).input_size = (nv1 * nv2 * nc) % SIZE_MOD :=
    size_mul_mul _ _ _
  have o0 : (l.init_layer nc nv1 nv2 k nw1 nw2).output_size
      = ((l.init_layer nc nv1 nv2 k nw1 nw2).nh1 * (l.init_layer nc nv1 nv2 k nw1 nw2).nh2
          * k) % SIZE_MOD := size_mul_mul _ _ _
  have o1 : (l.init_layer nc nv1 nv2 k nw1 nw2).output_size
      = ((nv1 - nw1 + 1) * (nv2 - nw2 + 1) * k) % SIZE_MOD := by
    rw [o0, e1, e2]
  refine ⟨e1, e2, by omega, by omega, by omega, by omega, i1, o1, ?_, ?_, ?_⟩
  · intro h
    rw [i1]
    exact Nat.mod_eq_of_lt h
  · intro h
    rw [o1]
    exact Nat.mod_eq_of_lt h
  · have e3 : (l.init_layer nc nv1 nv2 k nw1 nw2).h1_a
        = [k, (l.init_layer nc nv1 nv2 k nw1 nw2).nh1,
            (l.init_layer nc nv1 nv2 k nw1 nw2).nh2] := rfl
    rw [e3, e1, e2]

/-- Witness of the amended C6: the test call `init_layer(1, 28, 28, 10, 9, 9)` gives a
`10 x 20 x 20` output. -/
theorem conv_rbm_extents_witness :
    (sample.crbm.init_layer 1 28 28 10 9 9).nh1 = 20
      ∧ (sample.crbm.init_layer 1 28 28 10 9 9).nh2 = 20
      ∧ (sample.crbm.init_layer 1 28 28 10 9 9).input_size = 784
      ∧ (sample.crbm.init_layer 1 28 28 10 9 9).output_size = 4000
      ∧ (sample.crbm.init_layer 1 28 28 10 9 9).h1_a = [10, 20, 20] :=
  have h := conv_rbm_extents sample.crbm 1 28 28 10 9 9 (by decide) (by decide) (by decide)
    (by decide) (by decide) (by decide)
  ⟨h.1, h.2.1, h.2.2.2.2.2.2.2.2.1 (by decide), h.2.2.2.2.2.2.2.2.2.1 (by decide),
    h.2.2.2.2.2.2.2.2.2.2⟩

/-- C8, as stated, fails: after `init_layer(2, 2, 1, 2)` `output_size()` is 4 while the
container of `prepare_one_output` is an empty sequence holding no element. -/
theorem patches_output_size_mismatch :
    ¬ (sample.patch_layer.output_size
        = dyn_patches_layer.output_one_size
            (sample.patch_layer.prepare_one_output : List (dyn_matrix3 Nat)))
    ∧ ¬ (sample.patch_layer.output_size
        = (sample.patch_layer.prepare_one_output : List (dyn_matrix3 Nat)).length) := by
  have e : sample.patch_layer.output_size = 4 := by decide
  rw [e]
  constructor
  · show ¬ ((4 : Nat) = 0)
    decide
  · show ¬ ((4 : Nat) = 0)
    decide

/-- C8 amended: after `init_layer(width, height, v_stride, h_stride)` `output_size()` is the
`size_t` product `width * height` (the integer product when that is below `2^64`),
`prepare_one_output` returns the empty sequence, and every patch that `activate_hidden` puts
into the sequence has shape `1 x height x width` and exactly `output_size()` elements. -/
theorem patches_output_size_per_patch {α : Type} [Inhabited α] (l0 : dyn_patches_layer)
    (width height v_stride h_stride : Nat) :
    (l0.init_layer width height v_stride h_stride).output_size
        = (width * height) % SIZE_MOD
    ∧ (width * height < SIZE_MOD →
        (l0.init_layer width height v_stride h_stride).output_size = width * height)
    ∧ ((l0.init_layer width height v_stride h_stride).prepare_one_output
        : List (dyn_matrix3 α)) = []
    ∧ ∀ (fuel : Nat) (h_a out : List (dyn_matrix3 α)) (input : dyn_matrix3 α),
        (l0.init_layer width height v_stride h_stride).activate_hidden fuel h_a input = .ok out →
        ∀ p ∈ out, (p.dim0 = 1 ∧ p.dim1 = height ∧ p.dim2 = width)
          ∧ p.size = (l0.init_layer width height v_stride h_stride).output_size := by
  have o : (l0.init_layer width height v_stride h_stride).output_size
      = (width * height) % SIZE_MOD := rfl
  refine ⟨o, fun h => o.trans (Nat.mod_eq_of_lt h), rfl, ?_⟩
  intro fuel h_a out input h
  refine dyn_patches_layer.activate_hidden_all _ input _ ?_ fuel h_a out h
  intro y x p hp
  obtain ⟨d0, d1, d2⟩ := dyn_patches_layer.make_patch_dims
    (l0.init_layer width height v_stride h_stride) input y x p hp
  have e0 : (l0.init_layer width height v_stride h_stride).height = height := rfl
  have e1 : (l0.init_layer width height v_stride h_stride).width = width := rfl
  rw [e0] at d1
  rw [e1] at d2
  refine ⟨⟨d0, d1, d2⟩, ?_⟩
  have s : p.size = (p.dim0 * p.dim1 * p.dim2) % SIZE_MOD := etl_size_three _ _ _
  rw [s, o, d0, d1, d2, Nat.one_mul, Nat.mul_comm height width]

/-- Witness of the amended C8: the four patches of the sample image hold 4 elements each;
after `init_layer(2^32, 2^32, 1, 1)` `output_size()` is 0. -/
theorem patches_output_size_per_patch_witness :
    (∃ out, sample.patch_layer.activate_hidden 10 [] sample.image = .ok out ∧ out.length = 4)
    ∧ (sample.patch_layer.output_size = 2 * 2)
    ∧ (sample.huge_patch_layer.output_size = 0)
    ∧ ∀ (out : List (dyn_matrix3 Nat)),
        sample.patch_layer.activate_hidden 10 [] sample.image = .ok out →
        ∀ p ∈ out, (p.dim0 = 1 ∧ p.dim1 = 2 ∧ p.dim2 = 2) ∧ p.size = 4 :=
  ⟨⟨_, dyn_patches_layer.activate_hidden_eq sample.patch_layer 10 [] sample.image
      (by decide) (by decide) rfl (by decide) (by decide) (by decide) (by decide) (by decide),
      by rw [dyn_patches_layer.patches_length]; decide⟩,
    (@patches_output_size_per_patch Nat _ ⟨0, 0, 0, 0⟩ 2 2 1 2).2.1 (by decide),
    (@patches_output_size_per_patch Nat _ ⟨0, 0, 0, 0⟩ 4294967296 4294967296 1 1).1.trans
      (by decide),
    fun out h =>
      (patches_output_size_per_patch ⟨0, 0, 0, 0⟩ 2 2 1 2).2.2.2 10 [] out sample.image h⟩

/-! ## Claims on dyn_dense_layer -/

namespace dyn_dense_layer

variable {α : Type}

theorem foldl_set_row_val (g : Nat → dyn_matrix1 α) :
    ∀ (rows : List Nat) (output : dyn_matrix2 α) (i j : Nat),
      (rows.foldl (fun out r => out.set_row r (g r)) output).val i j
        = if i ∈ rows then (g i).val j else output.val i j := by
  intro rows
  induction rows with
  | nil => intro output i j; simp
  | cons a rows ih =>
    intro output i j
    rw [List.foldl_cons, ih]
    by_cases h1 : i ∈ rows
    · rw [if_pos h1, if_pos (List.mem_cons_of_mem _ h1)]
    · rw [if_neg h1]
      by_cases h2 : i = a
      · rw [if_pos (by rw [h2]; exact List.mem_cons_self _ _)]
        simp only [dyn_matrix2.set_row]
        rw [if_pos h2, h2]
      · have h3 : ¬ i ∈ a :: rows := by
          intro hm
          rcases List.mem_cons.mp hm with hm | hm
          · exact h2 hm
          · exact h1 hm
        rw [if_neg h3]
        simp only [dyn_matrix2.set_row]
        rw [if_neg h2]

theorem foldl_set_row_dims (g : Nat → dyn_matrix1 α) :
    ∀ (rows : List Nat) (output : dyn_matrix2 α),
      (rows.foldl (fun out r => out.set_row r (g r)) output).dim0 = output.dim0
      ∧ (rows.foldl (fun out r => out.set_row r (g r)) output).dim1 = output.dim1 := by
  intro rows
  induction rows with
  | nil => intro output; exact ⟨rfl, rfl⟩
  | cons a rows ih =>
    intro output
    rw [List.foldl_cons]
    exact ih _

theorem softmax_rows_val (be : activation_backend α) (F : function) (expr : dyn_matrix2 α)
    (Batch : Nat) (output : dyn_matrix2 α) (i j : Nat) (hi : i < Batch) :
    (softmax_rows be F expr Batch output).val i j = (f_activate1 be F (expr.row i)).val j := by
  unfold softmax_rows
  rw [foldl_set_row_val (fun r => f_activate1 be F (expr.row r)),
    if_pos (List.mem_range.mpr hi)]

theorem batch_row_eq [Semiring α] (l : dyn_dense_layer α) (v : dyn_matrix2 α) (i : Nat) :
    ((l.b.rep_l v.dim0).add (v.mul l.w)).row i = l.b.add ((v.row i).mul l.w) :=
  rfl

end dyn_dense_layer

/-- C9: when the output buffer has as many rows as the batch `V`, `batch_activate_hidden`
returns, and for every activation function (SOFTMAX included) row `i` of its output equals,
element by element, the output of `activate_hidden` on row `i` of `V`; hence rows of `V` that
all equal one sample `v` give rows that all equal `activate_hidden` of `v`. -/
theorem dense_batch_single_equiv {α : Type} [Semiring α] (be : activation_backend α)
    (l : dyn_dense_layer α) (output V : dyn_matrix2 α) (hB : output.dim0 = V.dim0) :
    ∃ out, l.batch_activate_hidden be output V = .ok out ∧
      (∀ i j, i < V.dim0 → out.val i j = (l.activate_hidden be (V.row i)).val j) ∧
      (∀ v, (∀ i, i < V.dim0 → V.row i = v) →
        ∀ i j, i < V.dim0 → out.val i j = (l.activate_hidden be v).val j) := by
  have main : ∃ out, l.batch_activate_hidden be output V = .ok out ∧
      (∀ i j, i < V.dim0 → out.val i j = (l.activate_hidden be (V.row i)).val j) := by
    unfold dyn_dense_layer.batch_activate_hidden
    simp only [hB, if_true]
    by_cases hF : l.activation_function = function.SOFTMAX
    · rw [if_pos hF]
      refine ⟨_, rfl, ?_⟩
      intro i j hi
      rw [dyn_dense_layer.softmax_rows_val be _ _ _ _ i j hi, dyn_dense_layer.batch_row_eq]
      rfl
    · rw [if_neg hF]
      refine ⟨_, rfl, ?_⟩
      intro i j _
      unfold dyn_dense_layer.activate_hidden f_activate2 f_activate1
      rw [if_neg hF, if_neg hF]
      rfl
  obtain ⟨out, hout, hrows⟩ := main
  refine ⟨out, hout, hrows, ?_⟩
  intro v hv i j hi
  rw [hrows i j hi, hv i hi]

/-- Witness of C9: the sample dense layer on a batch of 3 rows. -/
theorem dense_batch_single_equiv_witness :
    sample.out_buffer.dim0 = sample.batch.dim0 ∧
    ∃ out, sample.dense.batch_activate_hidden sample.backend sample.out_buffer sample.batch
        = .ok out ∧
      (∀ i j, i < sample.batch.dim0 →
        out.val i j = (sample.dense.activate_hidden sample.backend (sample.batch.row i)).val j) ∧
      (∀ v, (∀ i, i < sample.batch.dim0 → sample.batch.row i = v) →
        ∀ i j, i < sample.batch.dim0 →
          out.val i j = (sample.dense.activate_hidden sample.backend v).val j) :=
  ⟨rfl, dense_batch_single_equiv sample.backend sample.dense sample.out_buffer sample.batch rfl⟩

/-- C10: `backward_batch` writes `errors * transpose(w)`, and this is the adjoint of the
forward product `V * w`: the sum over `b, j` of `E[b][j] * (V * w)[b][j]` equals the sum over
`b, i` of `output[b][i] * V[b][i]`, for an output buffer with one row per error row and a
batch `V` of rows of length `num_visible`. -/
theorem dense_backward_adjoint {α : Type} [CommSemiring α] (l : dyn_dense_layer α)
    (output : dyn_matrix2 α) (context : dyn_dense_context α) (V : dyn_matrix2 α)
    (hB : output.dim0 = context.errors.dim0) (hV : V.dim1 = l.num_visible) :
    (∀ b i, (l.backward_batch output context).val b i
        = (Finset.range context.errors.dim1).sum fun j =>
            context.errors.val b j * l.w.val i j)
    ∧ (l.backward_batch output context).dim0 = output.dim0
    ∧ (l.backward_batch output context).dim1 = l.num_visible
    ∧ dyn_matrix2.dot context.errors (V.mul l.w)
        = dyn_matrix2.dot (l.backward_batch output context) V := by
  refine ⟨fun _ _ => rfl, rfl, rfl, ?_⟩
  simp only [dyn_matrix2.dot, dyn_dense_layer.backward_batch, dyn_matrix2.mul,
    dyn_matrix2.transpose]
  rw [hB, hV]
  apply Finset.sum_congr rfl
  intro b _
  simp only [Finset.mul_sum, Finset.sum_mul]
  rw [Finset.sum_comm]
  apply Finset.sum_congr rfl
  intro i _
  apply Finset.sum_congr rfl
  intro j _
  ring

/-- Witness of C10: the sample dense layer with a 3 x 2 error matrix. -/
theorem dense_backward_adjoint_witness :
    sample.out_buffer.dim0 = sample.context.errors.dim0 ∧
    sample.batch.dim1 = sample.dense.num_visible ∧
    dyn_matrix2.dot sample.context.errors (sample.batch.mul sample.dense.w)
      = dyn_matrix2.dot (sample.dense.backward_batch sample.out_buffer sample.context)
          sample.batch :=
  ⟨rfl, rfl,
    (dense_backward_adjoint sample.dense sample.out_buffer sample.context sample.batch
      rfl rfl).2.2.2⟩
/-! ## Claims on dyn_upsample_layer_3d::backward_batch -/

theorem block_offsets_unit : block_offsets 1 1 1 = [(0, 0, 0)] := by
  decide

/-- C11, as stated, fails: with factors `1 x 1 x 2`, input 1 and errors `(3, 5)` the sum of
products of the upsampled input with the errors is 8, the sum of products of the input with
the tensor `backward_batch` writes is 5. -/
theorem upsample_backward_not_adjoint :
    dyn_matrix4.dot (sample.upsample.batch_activate_hidden sample.unit_input) sample.pair_errors
        = 8
    ∧ dyn_matrix4.dot sample.unit_input
        (sample.upsample.backward_batch sample.unit_input sample.upsample_context) = 5
    ∧ dyn_matrix4.dot (sample.upsample.batch_activate_hidden sample.unit_input)
          sample.upsample_context.errors
        ≠ dyn_matrix4.dot sample.unit_input
          (sample.upsample.backward_batch sample.unit_input sample.upsample_context) := by
  have h1 : dyn_matrix4.dot (sample.upsample.batch_activate_hidden sample.unit_input)
      sample.pair_errors = 8 := by
    simp [dyn_matrix4.dot, dyn_upsample_layer_3d.batch_activate_hidden, etl_upsample_3d,
      sample.upsample, sample.unit_input, sample.pair_errors, Finset.sum_range_succ]
  have h2 : dyn_matrix4.dot sample.unit_input
      (sample.upsample.backward_batch sample.unit_input sample.upsample_context) = 5 := by
    have hb : block_offsets 1 1 2 = [(0, 0, 0), (0, 0, 1)] := by decide
    simp [dyn_matrix4.dot, dyn_upsample_layer_3d.backward_batch, etl_max_pool_3d,
      sample.upsample, sample.unit_input, sample.upsample_context, sample.pair_errors, hb]
  refine ⟨h1, h2, ?_⟩
  show dyn_matrix4.dot (sample.upsample.batch_activate_hidden sample.unit_input)
      sample.pair_errors ≠ _
  rw [h1, h2]
  decide

/-- C11 amended: `backward_batch` writes `max_pool_3d(errors, c1, c2, c3)`, the maximum of each
`c1 x c2 x c3` block of the errors, and with `c1 = c2 = c3 = 1` the sum of products of
`upsample_3d(x)` with `e` equals the sum of products of `x` with the tensor written from `e`. -/
theorem upsample_backward_block_max {α : Type} [LinearOrder α] [Semiring α]
    (l : dyn_upsample_layer_3d) (output x : dyn_matrix4 α)
    (context : dyn_upsample_context α) :
    (∀ n i j k, (l.backward_batch output context).val n i j k
        = (block_offsets l.c1 l.c2 l.c3).foldl
            (fun m o => max m
              (context.errors.val n (i * l.c1 + o.1) (j * l.c2 + o.2.1) (k * l.c3 + o.2.2)))
            (context.errors.val n (i * l.c1) (j * l.c2) (k * l.c3)))
    ∧ (l.c1 = 1 → l.c2 = 1 → l.c3 = 1 →
        dyn_matrix4.dot (l.batch_activate_hidden x) context.errors
          = dyn_matrix4.dot x (l.backward_batch output context)) := by
  refine ⟨fun _ _ _ _ => rfl, ?_⟩
  intro h1 h2 h3
  simp only [dyn_matrix4.dot, dyn_upsample_layer_3d.batch_activate_hidden,
    dyn_upsample_layer_3d.backward_batch, etl_upsample_3d, etl_max_pool_3d, h1, h2, h3,
    block_offsets_unit, List.foldl_cons, List.foldl_nil, Nat.mul_one, Nat.add_zero,
    Nat.div_one, max_self]

/-- Witness of the amended C11: the layer with factors `1 x 1 x 1` on the sample errors. -/
theorem upsample_backward_block_max_witness :
    dyn_matrix4.dot (sample.upsample_unit.batch_activate_hidden sample.pair_errors)
        sample.upsample_context.errors
      = dyn_matrix4.dot sample.pair_errors
        (sample.upsample_unit.backward_batch sample.unit_input sample.upsample_context) :=
  (upsample_backward_block_max sample.upsample_unit sample.unit_input sample.pair_errors
    sample.upsample_context).2 rfl rfl rfl

/-! ## Claims on compute_gradients and adapt_errors -/

/-- C12: `compute_gradients` of `dyn_dense_layer` sets `w_grad[i][j]` to the sum over the batch
of `input[b][i] * errors[b][j]` and `b_grad[j]` to the sum over the batch of `errors[b][j]`,
whatever `w_grad` and `b_grad` held before, and leaves `input`, `output` and `errors` (and the
increments) unchanged. -/
theorem dense_compute_gradients {α : Type} [Semiring α] (l : dyn_dense_layer α)
    (context : dyn_dense_context α) :
    (∀ i j, (l.compute_gradients context).w_grad.val i j
        = (Finset.range context.input.dim0).sum fun b =>
            context.input.val b i * context.errors.val b j)
    ∧ (∀ j, (l.compute_gradients context).b_grad.val j
        = (Finset.range context.errors.dim0).sum fun b => context.errors.val b j)
    ∧ (l.compute_gradients context).w_grad.dim0 = context.input.dim1
    ∧ (l.compute_gradients context).w_grad.dim1 = context.errors.dim1
    ∧ (l.compute_gradients context).b_grad.dim0 = context.errors.dim1
    ∧ (∀ (w_grad : dyn_matrix2 α) (b_grad : dyn_matrix1 α),
        (l.compute_gradients { context with w_grad := w_grad, b_grad := b_grad }).w_grad
            = (l.compute_gradients context).w_grad
        ∧ (l.compute_gradients { context with w_grad := w_grad, b_grad := b_grad }).b_grad
            = (l.compute_gradients context).b_grad)
    ∧ (l.compute_gradients context).input = context.input
    ∧ (l.compute_gradients context).output = context.output
    ∧ (l.compute_gradients context).errors = context.errors
    ∧ (l.compute_gradients context).w_inc = context.w_inc
    ∧ (l.compute_gradients context).b_inc = context.b_inc :=
  ⟨fun _ _ => rfl, fun _ => rfl, rfl, rfl, rfl, fun _ _ => ⟨rfl, rfl⟩, rfl, rfl, rfl, rfl, rfl⟩

/-- C13 fails on the code: `compute_gradients` of `deconv_layer` leaves `w_grad` as it was, so
two contexts with the same `input` and `errors` and different `w_grad` keep different `w_grad`
after the call; only `b_grad` is recomputed. -/
theorem deconv_compute_gradients_keeps_w_grad :
    (sample.deconv_context 0).input = (sample.deconv_context 1).input
    ∧ (sample.deconv_context 0).errors = (sample.deconv_context 1).errors
    ∧ (deconv_layer.compute_gradients sample.deconv (sample.deconv_context 0)).w_grad.val 0 0 0 0
        = 0
    ∧ (deconv_layer.compute_gradients sample.deconv (sample.deconv_context 1)).w_grad.val 0 0 0 0
        = 1
    ∧ (deconv_layer.compute_gradients sample.deconv (sample.deconv_context 0)).w_grad
        ≠ (deconv_layer.compute_gradients sample.deconv (sample.deconv_context 1)).w_grad
    ∧ (deconv_layer.compute_gradients sample.deconv (sample.deconv_context 0)).b_grad
        = (deconv_layer.compute_gradients sample.deconv (sample.deconv_context 1)).b_grad := by
  refine ⟨rfl, rfl, rfl, rfl, ?_, rfl⟩
  intro h
  have h0 : (deconv_layer.compute_gradients sample.deconv (sample.deconv_context 0)).w_grad.val
      0 0 0 0 = (0 : Rat) := rfl
  rw [h] at h0
  have h1 : (deconv_layer.compute_gradients sample.deconv (sample.deconv_context 1)).w_grad.val
      0 0 0 0 = (1 : Rat) := rfl
  rw [h1] at h0
  exact absurd h0 (by decide)

/-- C14: for `avgp_layer_3d` and `dyn_upsample_layer_3d`, `adapt_errors` and
`compute_gradients` return the training context they were given. -/
theorem pooling_training_noops {α : Type} (d : avgp_desc) (l : dyn_upsample_layer_3d)
    (c1 : avgp_context α) (c2 : dyn_upsample_context α) :
    avgp_layer_3d.adapt_errors d c1 = c1
    ∧ avgp_layer_3d.compute_gradients d c1 = c1
    ∧ l.adapt_errors c2 = c2
    ∧ l.compute_gradients c2 = c2 :=
  ⟨rfl, rfl, rfl, rfl⟩

/-- C15: for a `deconv_layer` whose activation is IDENTITY, `adapt_errors` returns the context
it was given, whatever derivative the backend supplies. -/
theorem deconv_adapt_errors_identity {α : Type} [Mul α] (deriv : function → α → α)
    (d : deconv_desc) (context : deconv_context α)
    (h : d.activation_function = function.IDENTITY) :
    deconv_layer.adapt_errors deriv d context = context := by
  unfold deconv_layer.adapt_errors
  rw [if_neg (not_not.mpr h)]

/-- Witness of C15: the IDENTITY sample descriptor with a doubling derivative. -/
theorem deconv_adapt_errors_identity_witness :
    sample.deconv_identity.activation_function = function.IDENTITY
    ∧ deconv_layer.adapt_errors (fun _ x => 2 * x) sample.deconv_identity
        (sample.deconv_context 1) = sample.deconv_context 1 :=
  ⟨rfl, deconv_adapt_errors_identity (fun _ x => 2 * x) sample.deconv_identity
    (sample.deconv_context 1) rfl⟩

/-! ## Claims on the accessors and the descriptors -/

/-- C16: the accessors read the instance of a dynamic layer and the type of a static layer:
on a `dyn_conv_rbm` after `init_layer(nc, nv1, nv2, k, nw1, nw2)` they return the arguments
of `init_layer`, the `batch_size` field and the instance's `input_size()`/`output_size()`; on a
`dyn_dense_layer` after `init_layer(nv, nh)` they return `nv` and `nh`; on a `deconv_layer`
they return the constants of the descriptor, whatever the instance holds. -/
theorem accessors_dispatch {α : Type} :
    (∀ (hu : unit_type) (l : dyn_conv_rbm) (nc nv1 nv2 k nw1 nw2 : Nat),
        (dyn_conv_rbm.view hu (l.init_layer nc nv1 nv2 k nw1 nw2)).get_nc = some nc
        ∧ (dyn_conv_rbm.view hu (l.init_layer nc nv1 nv2 k nw1 nw2)).get_nv1 = some nv1
        ∧ (dyn_conv_rbm.view hu (l.init_layer nc nv1 nv2 k nw1 nw2)).get_nv2 = some nv2
        ∧ (dyn_conv_rbm.view hu (l.init_layer nc nv1 nv2 k nw1 nw2)).get_k = some k
        ∧ (dyn_conv_rbm.view hu (l.init_layer nc nv1 nv2 k nw1 nw2)).get_nw1 = some nw1
        ∧ (dyn_conv_rbm.view hu (l.init_layer nc nv1 nv2 k nw1 nw2)).get_nw2 = some nw2
        ∧ (dyn_conv_rbm.view hu (l.init_layer nc nv1 nv2 k nw1 nw2)).get_batch_size
            = some (l.init_layer nc nv1 nv2 k nw1 nw2).batch_size
        ∧ (dyn_conv_rbm.view hu (l.init_layer nc nv1 nv2 k nw1 nw2)).input_size
            = some (l.init_layer nc nv1 nv2 k nw1 nw2).input_size
        ∧ (dyn_conv_rbm.view hu (l.init_layer nc nv1 nv2 k nw1 nw2)).output_size
            = some (l.init_layer nc nv1 nv2 k nw1 nw2).output_size)
    ∧ (∀ (l : dyn_dense_layer α) (nv nh : Nat) (w_init : Nat → Nat → α) (b_init : Nat → α),
        (dyn_dense_layer.view (l.init_layer nv nh w_init b_init)).num_visible = some nv
        ∧ (dyn_dense_layer.view (l.init_layer nv nh w_init b_init)).num_hidden = some nh)
    ∧ (∀ (d : deconv_desc) (inst : deconv_weights α),
        (deconv_layer.view d inst).get_nc = some d.NC
        ∧ (deconv_layer.view d inst).get_nv1 = some d.NV1
        ∧ (deconv_layer.view d inst).get_nv2 = some d.NV2
        ∧ (deconv_layer.view d inst).get_k = some d.K
        ∧ (deconv_layer.view d inst).get_nw1 = some d.NW1
        ∧ (deconv_layer.view d inst).get_nw2 = some d.NW2) :=
  ⟨fun _ _ _ _ _ _ _ _ => ⟨rfl, rfl, rfl, rfl, rfl, rfl, rfl, rfl, rfl⟩,
    fun _ _ _ _ _ => ⟨rfl, rfl⟩,
    fun _ _ => ⟨rfl, rfl, rfl, rfl, rfl, rfl⟩⟩

theorem get_activation_filter (dflt : function) :
    ∀ ps : List parameter,
      detail.get_activation dflt ps
        = detail.get_activation dflt
            (ps.filter fun p => decide (p.type_id = option_id.activation_id)) := by
  intro ps
  induction ps with
  | nil => rfl
  | cons p ps ih =>
    cases p with
    | other o =>
      cases o <;> simpa [detail.get_activation, parameter.type_id, plain_option.type_id,
        List.filter] using ih
    | _ => simp [detail.get_activation, parameter.type_id, List.filter, ih]

theorem get_initializer_filter (dflt : initializer_type) :
    ∀ ps : List parameter,
      detail.get_initializer dflt ps
        = detail.get_initializer dflt
            (ps.filter fun p => decide (p.type_id = option_id.initializer_id)) := by
  intro ps
  induction ps with
  | nil => rfl
  | cons p ps ih =>
    cases p with
    | other o =>
      cases o <;> simpa [detail.get_initializer, parameter.type_id, plain_option.type_id,
        List.filter] using ih
    | _ => simp [detail.get_initializer, parameter.type_id, List.filter, ih]

theorem get_initializer_bias_filter (dflt : initializer_type) :
    ∀ ps : List parameter,
      detail.get_initializer_bias dflt ps
        = detail.get_initializer_bias dflt
            (ps.filter fun p => decide (p.type_id = option_id.initializer_bias_id)) := by
  intro ps
  induction ps with
  | nil => rfl
  | cons p ps ih =>
    cases p with
    | other o =>
      cases o <;> simpa [detail.get_initializer_bias, parameter.type_id, plain_option.type_id,
        List.filter] using ih
    | _ => simp [detail.get_initializer_bias, parameter.type_id, List.filter, ih]

theorem get_weight_type_filter (dflt : weight_kind) :
    ∀ ps : List parameter,
      detail.get_weight_type dflt ps
        = detail.get_weight_type dflt
            (ps.filter fun p => decide (p.type_id = option_id.weight_type_id)) := by
  intro ps
  induction ps with
  | nil => rfl
  | cons p ps ih =>
    cases p with
    | other o =>
      cases o <;> simpa [detail.get_weight_type, parameter.type_id, plain_option.type_id,
        List.filter] using ih
    | _ => simp [detail.get_weight_type, parameter.type_id, List.filter, ih]

/-- C17: `dyn_conv_desc` with no option resolves to SIGMOID, LECUN, LECUN and float; a single
supplied option changes its own setting only; and in general each setting is a function of the
supplied options of its own kind alone. -/
theorem dyn_conv_desc_defaults :
    dyn_conv_desc.make []
        = some { parameters := [], activation_function := function.SIGMOID,
                 w_initializer := initializer_type.LECUN,
                 b_initializer := initializer_type.LECUN, weight := weight_kind.float }
    ∧ (∀ f, dyn_conv_desc.make [.activation f]
        = some { parameters := [.activation f], activation_function := f,
                 w_initializer := initializer_type.LECUN,
                 b_initializer := initializer_type.LECUN, weight := weight_kind.float })
    ∧ (∀ i, dyn_conv_desc.make [.initializer i]
        = some { parameters := [.initializer i], activation_function := function.SIGMOID,
                 w_initializer := i,
                 b_initializer := initializer_type.LECUN, weight := weight_kind.float })
    ∧ (∀ i, dyn_conv_desc.make [.initializer_bias i]
        = some { parameters := [.initializer_bias i], activation_function := function.SIGMOID,
                 w_initializer := initializer_type.LECUN,
                 b_initializer := i, weight := weight_kind.float })
    ∧ (∀ t, dyn_conv_desc.make [.weight_type t]
        = some { parameters := [.weight_type t], activation_function := function.SIGMOID,
                 w_initializer := initializer_type.LECUN,
                 b_initializer := initializer_type.LECUN, weight := t })
    ∧ (∀ ps d, dyn_conv_desc.make ps = some d →
        d.activation_function = detail.get_activation function.SIGMOID
            (ps.filter fun p => decide (p.type_id = option_id.activation_id))
        ∧ d.w_initializer = detail.get_initializer initializer_type.LECUN
            (ps.filter fun p => decide (p.type_id = option_id.initializer_id))
        ∧ d.b_initializer = detail.get_initializer_bias initializer_type.LECUN
            (ps.filter fun p => decide (p.type_id = option_id.initializer_bias_id))
        ∧ d.weight = detail.get_weight_type weight_kind.float
            (ps.filter fun p => decide (p.type_id = option_id.weight_type_id))) := by
  refine ⟨rfl, fun _ => rfl, fun _ => rfl, fun _ => rfl, fun _ => rfl, ?_⟩
  intro ps d h
  unfold dyn_conv_desc.make at h
  split at h
  · cases h
    exact ⟨get_activation_filter _ ps, get_initializer_filter _ ps,
      get_initializer_bias_filter _ ps, get_weight_type_filter _ ps⟩
  · cases h

/-- Witness of C17: two options supplied together. -/
theorem dyn_conv_desc_defaults_witness :
    dyn_conv_desc.make [.weight_type .double, .activation function.RELU]
        = some { parameters := [.weight_type .double, .activation function.RELU],
                 activation_function := function.RELU,
                 w_initializer := initializer_type.LECUN,
                 b_initializer := initializer_type.LECUN, weight := weight_kind.double }
    ∧ function.RELU = detail.get_activation function.SIGMOID
        ([parameter.weight_type .double, .activation function.RELU].filter
          fun p => decide (p.type_id = option_id.activation_id)) :=
  ⟨rfl, (dyn_conv_desc_defaults.2.2.2.2.2
    [.weight_type .double, .activation function.RELU] _ rfl).1⟩

theorem is_valid_iff (allowed : List option_id) (ps : List parameter) :
    detail.is_valid allowed ps = true ↔ ∀ p ∈ ps, p.type_id ∈ allowed := by
  unfold detail.is_valid
  simp [List.all_eq_true]

/-- C18: each descriptor is accepted exactly when every supplied option has its kind in the
allow-list of the descriptor: `weight_type`, `activation`, `initializer`, `initializer_bias`
for `dyn_conv_desc`, `weight_type` for `dyn_patches_layer_desc`, `copy`, `elastic` for
`augment_layer_desc`; the empty list is accepted. -/
theorem descriptor_allow_lists (ps : List parameter) :
    ((dyn_conv_desc.make ps).isSome = true ↔
        ∀ p ∈ ps, p.type_id ∈ [option_id.weight_type_id, option_id.activation_id,
          option_id.initializer_id, option_id.initializer_bias_id])
    ∧ ((dyn_patches_layer_desc.make ps).isSome = true ↔
        ∀ p ∈ ps, p.type_id ∈ [option_id.weight_type_id])
    ∧ ((augment_layer_desc.make ps).isSome = true ↔
        ∀ p ∈ ps, p.type_id ∈ [option_id.copy_id, option_id.elastic_id])
    ∧ (dyn_conv_desc.make []).isSome = true
    ∧ (dyn_patches_layer_desc.make []).isSome = true
    ∧ (augment_layer_desc.make []).isSome = true := by
  refine ⟨?_, ?_, ?_, rfl, rfl, rfl⟩
  · rw [← is_valid_iff]
    unfold dyn_conv_desc.make
    split <;> simp_all
  · rw [← is_valid_iff]
    unfold dyn_patches_layer_desc.make
    split <;> simp_all
  · rw [← is_valid_iff]
    unfold augment_layer_desc.make
    split <;> simp_all

/-- C19: `adapt_errors` of `dyn_conv_rbm` compiles exactly for the hidden units BINARY, SOFTMAX
and RELU; it then multiplies the errors by the derivative of SIGMOID, SOFTMAX and RELU
respectively, taken at the stored output. -/
theorem conv_rbm_adapt_errors_units {α : Type} [Mul α] (deriv : function → α → α)
    (hu : unit_type) (context : dyn_conv_rbm_context α) :
    ((dyn_conv_rbm.adapt_errors deriv hu context).isSome = true ↔
        hu = unit_type.BINARY ∨ hu = unit_type.SOFTMAX ∨ hu = unit_type.RELU)
    ∧ dyn_conv_rbm.adapt_errors_function unit_type.BINARY = some function.SIGMOID
    ∧ dyn_conv_rbm.adapt_errors_function unit_type.SOFTMAX = some function.SOFTMAX
    ∧ dyn_conv_rbm.adapt_errors_function unit_type.RELU = some function.RELU
    ∧ (∀ F, dyn_conv_rbm.adapt_errors_function hu = some F →
        ∃ c, dyn_conv_rbm.adapt_errors deriv hu context = some c
          ∧ (∀ n i j k, c.errors.val n i j k
              = deriv F (context.output.val n i j k) * context.errors.val n i j k)
          ∧ c.output = context.output ∧ c.input = context.input) := by
  refine ⟨?_, rfl, rfl, rfl, ?_⟩
  · cases hu <;> simp [dyn_conv_rbm.adapt_errors, dyn_conv_rbm.adapt_errors_function]
  · intro F hF
    unfold dyn_conv_rbm.adapt_errors
    rw [hF]
    exact ⟨_, rfl, fun _ _ _ _ => rfl, rfl, rfl⟩

/-- Witness of C19: a BINARY hidden unit on a context over the rationals. -/
theorem conv_rbm_adapt_errors_units_witness :
    dyn_conv_rbm.adapt_errors_function unit_type.BINARY = some function.SIGMOID
    ∧ ∃ c, dyn_conv_rbm.adapt_errors (fun _ (x : Rat) => x * (1 - x)) unit_type.BINARY
          (dyn_conv_rbm_context.create 2 1 28 28 10 20 20) = some c
        ∧ (∀ n i j k, c.errors.val n i j k
            = (fun _ (x : Rat) => x * (1 - x)) function.SIGMOID
                ((dyn_conv_rbm_context.create 2 1 28 28 10 20 20 :
                  dyn_conv_rbm_context Rat).output.val n i j k)
              * (dyn_conv_rbm_context.create 2 1 28 28 10 20 20 :
                  dyn_conv_rbm_context Rat).errors.val n i j k)
        ∧ c.output = (dyn_conv_rbm_context.create 2 1 28 28 10 20 20).output
        ∧ c.input = (dyn_conv_rbm_context.create 2 1 28 28 10 20 20).input :=
  ⟨rfl, (conv_rbm_adapt_errors_units (fun _ (x : Rat) => x * (1 - x)) unit_type.BINARY
    (dyn_conv_rbm_context.create 2 1 28 28 10 20 20)).2.2.2.2 function.SIGMOID rfl⟩

/-- C20: `deconv_layer::dyn_init(dyn)` is `dyn.init_layer(NC, NV1, NV2, K, NW1, NW2)` and
`avgp_layer_3d::dyn_init(dyn)` is `dyn.init_layer(I1, I2, I3, C1, C2, C3)`, arguments in that
order; `dyn_init` of `dyn_dense_layer`, `dyn_conv_rbm`, `dyn_patches_layer` and
`dyn_upsample_layer_3d` returns its argument unchanged. -/
theorem dyn_init_behaviour {D : Type} (d : deconv_desc) (a : avgp_desc)
    (init_layer : D → Nat → Nat → Nat → Nat → Nat → Nat → D) (dyn : D) :
    deconv_layer.dyn_init d init_layer dyn = init_layer dyn d.NC d.NV1 d.NV2 d.K d.NW1 d.NW2
    ∧ avgp_layer_3d.dyn_init a init_layer dyn = init_layer dyn a.I1 a.I2 a.I3 a.C1 a.C2 a.C3
    ∧ deconv_layer.dyn_init d (fun _ x1 x2 x3 x4 x5 x6 => [x1, x2, x3, x4, x5, x6]) []
        = [d.NC, d.NV1, d.NV2, d.K, d.NW1, d.NW2]
    ∧ avgp_layer_3d.dyn_init a (fun _ x1 x2 x3 x4 x5 x6 => [x1, x2, x3, x4, x5, x6]) []
        = [a.I1, a.I2, a.I3, a.C1, a.C2, a.C3]
    ∧ (∀ l : dyn_conv_rbm, deconv_layer.dyn_init d dyn_conv_rbm.init_layer l
        = l.init_layer d.NC d.NV1 d.NV2 d.K d.NW1 d.NW2)
    ∧ dyn_dense_layer.dyn_init dyn = dyn
    ∧ dyn_conv_rbm.dyn_init dyn = dyn
    ∧ dyn_patches_layer.dyn_init dyn = dyn
    ∧ dyn_upsample_layer_3d.dyn_init dyn = dyn :=
  ⟨rfl, rfl, rfl, rfl, fun _ => rfl, rfl, rfl, rfl, rfl⟩

/-! ## Claims on the dyn_conv_rbm context and batch size -/

theorem size_sub_round_trip {a b : Nat} (hb : b ≤ a) (ha : a < SIZE_MOD) :
    size_add (size_sub a (size_add (size_sub a b) 1)) 1 = b := by
  unfold size_sub size_add
  unfold SIZE_MOD at *
  have e : (2 : Nat) ^ 64 = 18446744073709551616 := by norm_num
  rw [e] at ha ⊢
  omega

/-- C21: after `init_layer(nc, nv1, nv2, k, nw1, nw2)` with `nw1 <= nv1` and `nw2 <= nv2`, the
context `init_sgd_context` allocates has `w_grad` and `w_inc` of shape `(k, nc, nw1, nw2)`, the
shape of `w`, `b_grad` and `b_inc` of length `k`, `input` of shape
`(batch_size, nc, nv1, nv2)` and `output` and `errors` of shape `(batch_size, k, nh1, nh2)`. -/
theorem conv_rbm_context_shapes {α : Type} [Inhabited α] (l : dyn_conv_rbm)
    (nc nv1 nv2 k nw1 nw2 batch_size : Nat)
    (hv1 : nw1 ≤ nv1) (hv2 : nw2 ≤ nv2) (m1 : nv1 < SIZE_MOD) (m2 : nv2 < SIZE_MOD) :
    ((l.init_layer nc nv1 nv2 k nw1 nw2).init_sgd_context batch_size
        : dyn_conv_rbm_context α).w_grad.dims = [k, nc, nw1, nw2]
    ∧ ((l.init_layer nc nv1 nv2 k nw1 nw2).init_sgd_context batch_size
        : dyn_conv_rbm_context α).w_inc.dims = [k, nc, nw1, nw2]
    ∧ (l.init_layer nc nv1 nv2 k nw1 nw2).w = [k, nc, nw1, nw2]
    ∧ ((l.init_layer nc nv1 nv2 k nw1 nw2).init_sgd_context batch_size
        : dyn_conv_rbm_context α).b_grad.dim0 = k
    ∧ ((l.init_layer nc nv1 nv2 k nw1 nw2).init_sgd_context batch_size
        : dyn_conv_rbm_context α).b_inc.dim0 = k
    ∧ ((l.init_layer nc nv1 nv2 k nw1 nw2).init_sgd_context batch_size
        : dyn_conv_rbm_context α).input.dims = [batch_size, nc, nv1, nv2]
    ∧ ((l.init_layer nc nv1 nv2 k nw1 nw2).init_sgd_context batch_size
        : dyn_conv_rbm_context α).output.dims
        = [batch_size, k, (l.init_layer nc nv1 nv2 k nw1 nw2).nh1,
            (l.init_layer nc nv1 nv2 k nw1 nw2).nh2]
    ∧ ((l.init_layer nc nv1 nv2 k nw1 nw2).init_sgd_context batch_size
        : dyn_conv_rbm_context α).errors.dims
        = [batch_size, k, (l.init_layer nc nv1 nv2 k nw1 nw2).nh1,
            (l.init_layer nc nv1 nv2 k nw1 nw2).nh2] := by
  have e1 := size_sub_round_trip hv1 m1
  have e2 := size_sub_round_trip hv2 m2
  have hw : ((l.init_layer nc nv1 nv2 k nw1 nw2).init_sgd_context batch_size
      : dyn_conv_rbm_context α).w_grad.dims
      = [k, nc, size_add (size_sub nv1 (size_add (size_sub nv1 nw1) 1)) 1,
          size_add (size_sub nv2 (size_add (size_sub nv2 nw2) 1)) 1] := rfl
  have hi : ((l.init_layer nc nv1 nv2 k nw1 nw2).init_sgd_context batch_size
      : dyn_conv_rbm_context α).w_inc.dims
      = [k, nc, size_add (size_sub nv1 (size_add (size_sub nv1 nw1) 1)) 1,
          size_add (size_sub nv2 (size_add (size_sub nv2 nw2) 1)) 1] := rfl
  rw [e1, e2] at hw hi
  exact ⟨hw, hi, rfl, rfl, rfl, rfl, rfl, rfl⟩

/-- Witness of C21: the test layer `init_layer(1, 28, 28, 10, 9, 9)` in a network of batch
size 25. -/
theorem conv_rbm_context_shapes_witness :
    ((sample.crbm.init_layer 1 28 28 10 9 9).init_sgd_context 25
        : dyn_conv_rbm_context Nat).w_grad.dims = [10, 1, 9, 9]
    ∧ ((sample.crbm.init_layer 1 28 28 10 9 9).init_sgd_context 25
        : dyn_conv_rbm_context Nat).output.dims
        = [25, 10, (sample.crbm.init_layer 1 28 28 10 9 9).nh1,
            (sample.crbm.init_layer 1 28 28 10 9 9).nh2] :=
  ⟨(conv_rbm_context_shapes sample.crbm 1 28 28 10 9 9 25 (by decide) (by decide)
      (by decide) (by decide)).1,
    (conv_rbm_context_shapes sample.crbm 1 28 28 10 9 9 25 (by decide) (by decide)
      (by decide) (by decide)).2.2.2.2.2.2.1⟩

/-- C22: `batch_size` is 25 on a default-constructed `dyn_conv_rbm`, `init_layer` leaves it as
it is for every argument tuple, so it is still 25 after `init_layer` whatever the
dimensions. -/
theorem conv_rbm_batch_size (junk l : dyn_conv_rbm) (nc nv1 nv2 k nw1 nw2 : Nat) :
    (dyn_conv_rbm.construct junk).batch_size = 25
    ∧ (l.init_layer nc nv1 nv2 k nw1 nw2).batch_size = l.batch_size
    ∧ ((dyn_conv_rbm.construct junk).init_layer nc nv1 nv2 k nw1 nw2).batch_size = 25 :=
  ⟨rfl, rfl, rfl⟩

/-! ## Claims on rectifier_layer -/

/-- C23: `rectifier_layer` compiles for the ABS method only, and then `activate_hidden` and
`batch_activate_hidden` write the elementwise absolute value of the input, so that sample
`n` of the batch output is the single-sample output on sample `n` of the batch. -/
theorem rectifier_abs {α : Type} [Lattice α] [AddGroup α] (method : rectifier_method)
    (out3 in3 : dyn_matrix3 α) (out4 in4 : dyn_matrix4 α) :
    ((rectifier_layer.activate_hidden method out3 in3).isSome = true
        ↔ method = rectifier_method.ABS)
    ∧ ((rectifier_layer.batch_activate_hidden method out4 in4).isSome = true
        ↔ method = rectifier_method.ABS)
    ∧ (∃ o, rectifier_layer.activate_hidden rectifier_method.ABS out3 in3 = some o
        ∧ o.dim0 = in3.dim0 ∧ o.dim1 = in3.dim1 ∧ o.dim2 = in3.dim2
        ∧ ∀ c i j, o.val c i j = |in3.val c i j|)
    ∧ (∃ o, rectifier_layer.batch_activate_hidden rectifier_method.ABS out4 in4 = some o
        ∧ o.dim0 = in4.dim0 ∧ o.dim1 = in4.dim1 ∧ o.dim2 = in4.dim2 ∧ o.dim3 = in4.dim3
        ∧ (∀ n c i j, o.val n c i j = |in4.val n c i j|)
        ∧ ∀ n, rectifier_layer.activate_hidden rectifier_method.ABS out3 (in4.sample n)
            = some (o.sample n)) := by
  refine ⟨?_, ?_, ⟨_, rfl, rfl, rfl, rfl, fun _ _ _ => rfl⟩,
    ⟨_, rfl, rfl, rfl, rfl, rfl, fun _ _ _ _ => rfl, fun _ => rfl⟩⟩
  · unfold rectifier_layer.activate_hidden
    split <;> simp_all
  · unfold rectifier_layer.batch_activate_hidden
    split <;> simp_all

/-! ## Claims on dyn_dense_layer: adapt_errors and the all-zero input -/

/-- C24: `adapt_errors` of `dyn_dense_layer` replaces `errors[b][j]` by
`f'(output[b][j]) * errors[b][j]` and leaves `output`, `input`, `w_grad` and `b_grad`
unchanged; when the activation is IDENTITY and its derivative is 1 every element of `errors`
keeps its value. -/
theorem dense_adapt_errors {α : Type} [MulOneClass α] (deriv : function → α → α)
    (l : dyn_dense_layer α) (context : dyn_dense_context α) :
    (∀ b j, (l.adapt_errors deriv context).errors.val b j
        = deriv l.activation_function (context.output.val b j) * context.errors.val b j)
    ∧ (l.adapt_errors deriv context).output = context.output
    ∧ (l.adapt_errors deriv context).input = context.input
    ∧ (l.adapt_errors deriv context).w_grad = context.w_grad
    ∧ (l.adapt_errors deriv context).b_grad = context.b_grad
    ∧ (l.activation_function = function.IDENTITY → (∀ x, deriv function.IDENTITY x = 1) →
        ∀ b j, (l.adapt_errors deriv context).errors.val b j = context.errors.val b j) := by
  refine ⟨fun _ _ => rfl, rfl, rfl, rfl, rfl, ?_⟩
  intro hF hd b j
  show deriv l.activation_function (context.output.val b j) * context.errors.val b j = _
  rw [hF, hd, one_mul]

/-- Witness of C24: an IDENTITY layer over the integers with derivative 1. -/
theorem dense_adapt_errors_witness :
    ∀ b j, (dyn_dense_layer.adapt_errors (fun _ _ => (1 : Int))
        { sample.dense with activation_function := function.IDENTITY } sample.context).errors.val
          b j
      = sample.context.errors.val b j :=
  (dense_adapt_errors (fun _ _ => (1 : Int))
    { sample.dense with activation_function := function.IDENTITY } sample.context).2.2.2.2.2
    rfl (fun _ => rfl)

theorem dense_zero_pre_activation {α : Type} [Semiring α] (l : dyn_dense_layer α)
    (v : dyn_matrix1 α) (hz : ∀ k, k < v.dim0 → v.val k = 0) :
    l.b.add (v.mul l.w) = l.b := by
  have hval : (fun j => l.b.val j + (Finset.range v.dim0).sum fun k => v.val k * l.w.val k j)
      = l.b.val := by
    funext j
    have hsum : ((Finset.range v.dim0).sum fun k => v.val k * l.w.val k j) = 0 := by
      apply Finset.sum_eq_zero
      intro k hk
      rw [hz k (Finset.mem_range.mp hk), zero_mul]
    rw [hsum, add_zero]
  show ({ dim0 := l.b.dim0,
          val := fun j => l.b.val j + (Finset.range v.dim0).sum fun k => v.val k * l.w.val k j }
        : dyn_matrix1 α) = l.b
  rw [hval]

theorem softmax_dense_zero_input (b1 : Real) :
    ((sample.softmax_dense b1).activate_hidden (exact_backend Real.exp) sample.zero_input).val 0
      = Real.exp 1 / (Real.exp 1 + Real.exp b1) := by
  simp [dyn_dense_layer.activate_hidden, f_activate1, sample.softmax_dense,
    dyn_dense_layer.init_layer, exact_backend, softmax, sample.zero_input, dyn_matrix1.add,
    dyn_matrix1.mul, Finset.sum_range_succ]

/-- C25, as stated, fails for a SOFTMAX layer: two layers whose biases agree at index 0, `(1, 1)`
and `(1, 3)`, give different outputs at index 0 on the all-zero input, `e / (e + e) = 1/2` and
`e / (e + e^3) < 1/2` with the softmax over the reals, so the entry is not a function of
`b[0]` alone. -/
theorem dense_zero_input_softmax_mismatch :
    (sample.softmax_dense (1 : Real)).b.val 0 = (sample.softmax_dense (3 : Real)).b.val 0
    ∧ ((sample.softmax_dense (1 : Real)).activate_hidden (exact_backend Real.exp)
        sample.zero_input).val 0 = Real.exp 1 / (Real.exp 1 + Real.exp 1)
    ∧ ((sample.softmax_dense (3 : Real)).activate_hidden (exact_backend Real.exp)
        sample.zero_input).val 0 = Real.exp 1 / (Real.exp 1 + Real.exp 3)
    ∧ ((sample.softmax_dense (1 : Real)).activate_hidden (exact_backend Real.exp)
        sample.zero_input).val 0 = 1 / 2
    ∧ ((sample.softmax_dense (3 : Real)).activate_hidden (exact_backend Real.exp)
        sample.zero_input).val 0 < 1 / 2
    ∧ ((sample.softmax_dense (1 : Real)).activate_hidden (exact_backend Real.exp)
        sample.zero_input).val 0
        ≠ ((sample.softmax_dense (3 : Real)).activate_hidden (exact_backend Real.exp)
        sample.zero_input).val 0 := by
  have p1 : 0 < Real.exp 1 := Real.exp_pos 1
  have p3 : Real.exp 1 < Real.exp 3 := Real.exp_lt_exp.mpr (by norm_num)
  have h1 : Real.exp 1 / (Real.exp 1 + Real.exp 1) = 1 / 2 := by
    field_simp
    ring
  have h3 : Real.exp 1 / (Real.exp 1 + Real.exp 3) < 1 / 2 := by
    have hpos : 0 < Real.exp 1 + Real.exp 3 := by linarith
    have e : Real.exp 1 / (Real.exp 1 + Real.exp 3) - 1 / 2
        = (Real.exp 1 - Real.exp 3) / (2 * (Real.exp 1 + Real.exp 3)) := by
      field_simp
      ring
    have hneg : (Real.exp 1 - Real.exp 3) / (2 * (Real.exp 1 + Real.exp 3)) < 0 :=
      div_neg_of_neg_of_pos (by linarith) (by linarith)
    linarith
  refine ⟨rfl, softmax_dense_zero_input 1, softmax_dense_zero_input 3, ?_, ?_, ?_⟩
  · rw [softmax_dense_zero_input 1, h1]
  · rw [softmax_dense_zero_input 3]
    exact h3
  · rw [softmax_dense_zero_input 1, softmax_dense_zero_input 3, h1]
    exact ne_of_gt h3

/-- C25 amended: in exact arithmetic (a semiring, where `0 * w = 0` for every weight) the
output of `activate_hidden` on an input whose entries are all zero does not depend on the
weights `w`; for every activation other than SOFTMAX its `j`-th entry is the activation applied
to `b[j]` and its length is that of `b` (`num_hidden` after `init_layer`); for SOFTMAX it is
the softmax of the whole bias vector. -/
theorem dense_zero_input {α : Type} [Semiring α] (be : activation_backend α)
    (l : dyn_dense_layer α) (v : dyn_matrix1 α) (hz : ∀ k, k < v.dim0 → v.val k = 0) :
    (∀ w : dyn_matrix2 α,
        dyn_dense_layer.activate_hidden be { l with w := w } v = l.activate_hidden be v)
    ∧ (l.activation_function ≠ function.SOFTMAX →
        (∀ j, (l.activate_hidden be v).val j = be.scalar l.activation_function (l.b.val j))
        ∧ (l.activate_hidden be v).dim0 = l.b.dim0)
    ∧ (l.activation_function = function.SOFTMAX → l.activate_hidden be v = be.softmax1 l.b)
    ∧ (∀ (nv nh : Nat) (w_init : Nat → Nat → α) (b_init : Nat → α),
        (l.init_layer nv nh w_init b_init).b.dim0 = nh) := by
  have key : ∀ m : dyn_dense_layer α,
      m.activate_hidden be v = f_activate1 be m.activation_function m.b := by
    intro m
    unfold dyn_dense_layer.activate_hidden
    rw [dense_zero_pre_activation m v hz]
  refine ⟨?_, ?_, ?_, fun _ _ _ _ => rfl⟩
  · intro w
    rw [key, key]
  · intro hF
    rw [key]
    unfold f_activate1
    rw [if_neg hF]
    exact ⟨fun _ => rfl, rfl⟩
  · intro hF
    rw [key]
    unfold f_activate1
    rw [if_pos hF]

/-- Witness of the amended C25: the sample RELU layer over the integers on a zero input. -/
theorem dense_zero_input_witness :
    (∀ k, k < 2 → (⟨2, fun _ => 0⟩ : dyn_matrix1 Int).val k = 0)
    ∧ sample.dense.activation_function ≠ function.SOFTMAX
    ∧ ∀ j, (sample.dense.activate_hidden sample.backend ⟨2, fun _ => 0⟩).val j
        = sample.backend.scalar sample.dense.activation_function (sample.dense.b.val j) :=
  ⟨fun _ _ => rfl, by decide,
    ((dense_zero_input sample.backend sample.dense ⟨2, fun _ => 0⟩ (fun _ _ => rfl)).2.1
      (by decide)).1⟩

/-! ## Claim on parameters() -/

/-- C26 fails on the code for `deconv_layer`: with `NC = 2` (descriptor `<2, 28, 28, 10, 9, 9>`)
`parameters()` is `K * NW1 * NW2 = 810` while the weight tensor of shape `NC x K x NW1 x NW2`
has 1620 elements; `dyn_dense_layer::parameters()` and `dyn_conv_rbm::parameters()` do equal
the element counts of their weight tensors. -/
theorem deconv_parameters_misses_channels :
    deconv_layer.parameters sample.deconv_two_channels = 810
    ∧ etl_size (deconv_layer.w_dims sample.deconv_two_channels) = 1620
    ∧ deconv_layer.parameters sample.deconv_two_channels
        ≠ etl_size (deconv_layer.w_dims sample.deconv_two_channels)
    ∧ (∀ (l : dyn_dense_layer Int) (nv nh : Nat) (w_init : Nat → Nat → Int) (b_init : Nat → Int),
        (l.init_layer nv nh w_init b_init).parameters
          = (l.init_layer nv nh w_init b_init).w.size)
    ∧ (∀ (l : dyn_conv_rbm) (nc nv1 nv2 k nw1 nw2 : Nat),
        (l.init_layer nc nv1 nv2 k nw1 nw2).parameters
          = etl_size (l.init_layer nc nv1 nv2 k nw1 nw2).w) := by
  refine ⟨by decide, by decide, by decide, ?_, ?_⟩
  · intro l nv nh w_init b_init
    show size_mul nv nh = etl_size [nv, nh]
    unfold size_mul etl_size
    rw [List.prod_cons, List.prod_cons, List.prod_nil, Nat.mul_one]
  · intro l nc nv1 nv2 k nw1 nw2
    show size_mul (size_mul (size_mul nc k) nw1) nw2 = etl_size [k, nc, nw1, nw2]
    have e : nc * k * nw1 * nw2 = k * (nc * (nw1 * nw2)) := by ring
    unfold etl_size
    rw [List.prod_cons, List.prod_cons, List.prod_cons, List.prod_cons, List.prod_nil,
      Nat.mul_one, ← e]
    unfold size_mul
    rw [Nat.mod_mul_mod, Nat.mul_assoc (nc * k % SIZE_MOD), Nat.mod_mul_mod, ← Nat.mul_assoc]

/-! ## Claim on dyn_upsample_layer_3d: backward after forward -/

theorem mem_block_offsets {c1 c2 c3 : Nat} {o : Nat × Nat × Nat}
    (h : o ∈ block_offsets c1 c2 c3) : o.1 < c1 ∧ o.2.1 < c2 ∧ o.2.2 < c3 := by
  unfold block_offsets at h
  obtain ⟨a, ha, h⟩ := List.mem_flatMap.mp h
  obtain ⟨b, hb, h⟩ := List.mem_flatMap.mp h
  obtain ⟨c, hc, h⟩ := List.mem_map.mp h
  subst h
  exact ⟨List.mem_range.mp ha, List.mem_range.mp hb, List.mem_range.mp hc⟩

theorem foldl_max_const {α β : Type} [LinearOrder α] (f : β → α) (v : α) :
    ∀ os : List β, (∀ o ∈ os, f o = v) → os.foldl (fun m o => max m (f o)) v = v := by
  intro os
  induction os with
  | nil => intro _; rfl
  | cons a os ih =>
    intro h
    rw [List.foldl_cons, h a (List.mem_cons_self _ _), max_self]
    exact ih fun o ho => h o (List.mem_cons_of_mem _ ho)

theorem block_index {c a : Nat} (i : Nat) (ha : a < c) : (i * c + a) / c = i := by
  have hc : 0 < c := by omega
  rw [Nat.add_comm, Nat.add_mul_div_right a i hc, Nat.div_eq_of_lt ha, Nat.zero_add]

theorem max_pool_upsample_val {α : Type} [LinearOrder α] (x : dyn_matrix4 α) (c1 c2 c3 : Nat)
    (h1 : 1 ≤ c1) (h2 : 1 ≤ c2) (h3 : 1 ≤ c3) (n i j k : Nat) :
    (etl_max_pool_3d (etl_upsample_3d x c1 c2 c3) c1 c2 c3).val n i j k = x.val n i j k := by
  have e0 : (etl_upsample_3d x c1 c2 c3).val n (i * c1) (j * c2) (k * c3) = x.val n i j k := by
    show x.val n (i * c1 / c1) (j * c2 / c2) (k * c3 / c3) = _
    rw [Nat.mul_div_cancel i (by omega), Nat.mul_div_cancel j (by omega),
      Nat.mul_div_cancel k (by omega)]
  show (block_offsets c1 c2 c3).foldl
      (fun m o => max m ((etl_upsample_3d x c1 c2 c3).val n (i * c1 + o.1) (j * c2 + o.2.1)
        (k * c3 + o.2.2)))
      ((etl_upsample_3d x c1 c2 c3).val n (i * c1) (j * c2) (k * c3)) = _
  rw [e0]
  apply foldl_max_const
    (fun o : Nat × Nat × Nat =>
      (etl_upsample_3d x c1 c2 c3).val n (i * c1 + o.1) (j * c2 + o.2.1) (k * c3 + o.2.2))
  intro o ho
  obtain ⟨b1, b2, b3⟩ := mem_block_offsets ho
  show x.val n ((i * c1 + o.1) / c1) ((j * c2 + o.2.1) / c2) ((k * c3 + o.2.2) / c3) = _
  rw [block_index i b1, block_index j b2, block_index k b3]

theorem flat_index {i2 i3 i j k : Nat} (hj : j < i2) (hk : k < i3) :
    ((i * i2 + j) * i3 + k) / (i2 * i3) = i ∧ ((i * i2 + j) * i3 + k) / i3 % i2 = j
      ∧ ((i * i2 + j) * i3 + k) % i3 = k := by
  have e1 : ((i * i2 + j) * i3 + k) / i3 = i * i2 + j := block_index _ hk
  have e2 : (i * i2 + j) / i2 = i := block_index _ hj
  refine ⟨?_, ?_, ?_⟩
  · rw [Nat.mul_comm i2 i3, ← Nat.div_div_eq_div_mul, e1, e2]
  · rw [e1, Nat.add_comm, Nat.add_mul_mod_self_right, Nat.mod_eq_of_lt hj]
  · rw [Nat.add_comm, Nat.add_mul_mod_self_right, Nat.mod_eq_of_lt hk]

/-- C27: with factors `c1, c2, c3 >= 1`, when `context.errors` is `upsample_3d(x, c1, c2, c3)`
the rank-4 `backward_batch` writes exactly `x`, and the flattened variant writes `x` in
row-major order: element `(n, (i * i2 + j) * i3 + k)` is `x(n, i, j, k)`. -/
theorem upsample_backward_inverts_forward {α : Type} [LinearOrder α]
    (l : dyn_upsample_layer_3d) (x output : dyn_matrix4 α) (flat : dyn_matrix2 α)
    (context : dyn_upsample_context α)
    (h1 : 1 ≤ l.c1) (h2 : 1 ≤ l.c2) (h3 : 1 ≤ l.c3)
    (he : context.errors = l.batch_activate_hidden x) :
    l.backward_batch output context = x
    ∧ (∀ n i j k, j < l.i2 → k < l.i3 →
        (l.backward_batch_flat flat context).val n ((i * l.i2 + j) * l.i3 + k)
          = x.val n i j k)
    ∧ (l.backward_batch_flat flat context).dim0 = flat.dim0
    ∧ (l.backward_batch_flat flat context).dim1 = flat.dim1 := by
  have hval : ∀ n i j k,
      (etl_max_pool_3d context.errors l.c1 l.c2 l.c3).val n i j k = x.val n i j k := by
    intro n i j k
    rw [he]
    exact max_pool_upsample_val x l.c1 l.c2 l.c3 h1 h2 h3 n i j k
  refine ⟨?_, ?_, rfl, rfl⟩
  · have hd1 : x.dim1 * l.c1 / l.c1 = x.dim1 := Nat.mul_div_cancel _ (by omega)
    have hd2 : x.dim2 * l.c2 / l.c2 = x.dim2 := Nat.mul_div_cancel _ (by omega)
    have hd3 : x.dim3 * l.c3 / l.c3 = x.dim3 := Nat.mul_div_cancel _ (by omega)
    have hfun : (etl_max_pool_3d context.errors l.c1 l.c2 l.c3).val = x.val := by
      funext n i j k
      exact hval n i j k
    have hshape : etl_max_pool_3d context.errors l.c1 l.c2 l.c3
        = { dim0 := x.dim0, dim1 := x.dim1 * l.c1 / l.c1, dim2 := x.dim2 * l.c2 / l.c2,
            dim3 := x.dim3 * l.c3 / l.c3,
            val := (etl_max_pool_3d context.errors l.c1 l.c2 l.c3).val } := by
      rw [he]
      rfl
    show etl_max_pool_3d context.errors l.c1 l.c2 l.c3 = x
    rw [hshape, hfun, hd1, hd2, hd3]
  · intro n i j k hj hk
    obtain ⟨f1, f2, f3⟩ := flat_index (i := i) hj hk
    show (etl_max_pool_3d context.errors l.c1 l.c2 l.c3).val n
        (((i * l.i2 + j) * l.i3 + k) / (l.i2 * l.i3))
        (((i * l.i2 + j) * l.i3 + k) / l.i3 % l.i2) (((i * l.i2 + j) * l.i3 + k) % l.i3) = _
    rw [f1, f2, f3]
    exact hval n i j k

/-- Witness of C27: the sample layer with factors `1 x 1 x 2` on the unit input. -/
theorem upsample_backward_inverts_forward_witness :
    sample.upsample.backward_batch sample.pair_errors
        { input := sample.unit_input, output := sample.pair_errors,
          errors := sample.upsample.batch_activate_hidden sample.unit_input }
      = sample.unit_input :=
  (upsample_backward_inverts_forward sample.upsample sample.unit_input sample.pair_errors
    ⟨1, 1, fun _ _ => 0⟩
    { input := sample.unit_input, output := sample.pair_errors,
      errors := sample.upsample.batch_activate_hidden sample.unit_input }
    (by decide) (by decide) (by decide) rfl).1


/-! ## Claims on dyn_patches_layer: termination and small inputs -/

namespace dyn_patches_layer

variable {α : Type}

theorem col_loop_stuck [Inhabited α] (l : dyn_patches_layer) (input : dyn_matrix3 α)
    (y x : Nat) (hs : l.h_stride = 0) (h0 : 0 < input.dim0) (hy : y + l.height ≤ input.dim1)
    (hx : x + l.width ≤ input.dim2) (m1 : input.dim1 < SIZE_MOD) (m2 : input.dim2 < SIZE_MOD) :
    ∀ (fuel : Nat) (h_a : List (dyn_matrix3 α)),
      col_loop l input y fuel x h_a = .error .out_of_fuel := by
  intro fuel
  induction fuel with
  | zero => intro h_a; rfl
  | succ fuel ih =>
    intro h_a
    unfold col_loop
    rw [size_add_of_lt (by omega : x + l.width < SIZE_MOD), if_pos hx,
      make_patch_ok l input y x h0 hy hx m1 m2]
    simp only
    rw [hs, size_add_of_lt (by omega : x + 0 < SIZE_MOD), Nat.add_zero]
    exact ih _

theorem col_loop_error [Inhabited α] (l : dyn_patches_layer) (input : dyn_matrix3 α) (y : Nat)
    (h0 : 0 < input.dim0) (hy : y + l.height ≤ input.dim1)
    (m1 : input.dim1 < SIZE_MOD) (m2 : input.dim2 + l.h_stride < SIZE_MOD) :
    ∀ (fuel x : Nat) (h_a : List (dyn_matrix3 α)) (e : call_error),
      x + l.width < SIZE_MOD →
      col_loop l input y fuel x h_a = .error e → e = .out_of_fuel := by
  intro fuel
  induction fuel with
  | zero =>
    intro x h_a e _ h
    simp only [col_loop] at h
    cases h
    rfl
  | succ fuel ih =>
    intro x h_a e hxm h
    unfold col_loop at h
    rw [size_add_of_lt hxm] at h
    by_cases hx : x + l.width ≤ input.dim2
    · rw [if_pos hx, make_patch_ok l input y x h0 hy hx m1 (by omega)] at h
      simp only at h
      rw [size_add_of_lt (by omega : x + l.h_stride < SIZE_MOD)] at h
      exact ih _ _ e (by omega) h
    · rw [if_neg hx] at h
      cases h

theorem row_loop_stuck [Inhabited α] (l : dyn_patches_layer) (input : dyn_matrix3 α)
    (colFuel y : Nat) (hs : l.v_stride = 0) (h0 : 0 < input.dim0)
    (hy : y + l.height ≤ input.dim1) (m1 : input.dim1 < SIZE_MOD)
    (m2 : input.dim2 + l.h_stride < SIZE_MOD) (mw : l.width < SIZE_MOD) :
    ∀ (fuel : Nat) (h_a : List (dyn_matrix3 α)),
      row_loop l input colFuel fuel y h_a = .error .out_of_fuel := by
  intro fuel
  induction fuel with
  | zero => intro h_a; rfl
  | succ fuel ih =>
    intro h_a
    unfold row_loop
    rw [size_add_of_lt (by omega : y + l.height < SIZE_MOD), if_pos hy]
    cases hcol : col_loop l input y colFuel 0 h_a with
    | error e =>
      rw [col_loop_error l input y h0 hy m1 m2 colFuel 0 h_a e (by omega) hcol]
    | ok h_a1 =>
      simp only
      rw [hs, size_add_of_lt (by omega : y + 0 < SIZE_MOD), Nat.add_zero]
      exact ih _

theorem row_loop_col_stuck [Inhabited α] (l : dyn_patches_layer) (input : dyn_matrix3 α)
    (colFuel y : Nat) (hs : l.h_stride = 0) (h0 : 0 < input.dim0)
    (hy : y + l.height ≤ input.dim1) (hx : l.width ≤ input.dim2)
    (m1 : input.dim1 < SIZE_MOD) (m2 : input.dim2 < SIZE_MOD)
    (fuel : Nat) (h_a : List (dyn_matrix3 α)) :
    row_loop l input colFuel fuel y h_a = .error .out_of_fuel := by
  cases fuel with
  | zero => rfl
  | succ fuel =>
    unfold row_loop
    rw [size_add_of_lt (by omega : y + l.height < SIZE_MOD), if_pos hy,
      col_loop_stuck l input y 0 hs h0 hy (by omega) m1 m2 colFuel h_a]

theorem row_loop_endless [Inhabited α] (l : dyn_patches_layer) (input : dyn_matrix3 α)
    (colFuel : Nat) (hg : ∀ y, size_add y l.height ≤ input.dim1)
    (hw : ¬ size_add 0 l.width ≤ input.dim2) :
    ∀ (fuel y : Nat) (h_a : List (dyn_matrix3 α)),
      row_loop l input colFuel fuel y h_a = .error .out_of_fuel := by
  intro fuel
  induction fuel with
  | zero => intro y h_a; rfl
  | succ fuel ih =>
    intro y h_a
    unfold row_loop
    rw [if_pos (hg y)]
    cases colFuel with
    | zero => rfl
    | succ c =>
      unfold col_loop
      rw [if_neg hw]
      exact ih _ _

end dyn_patches_layer

/-- C28, as stated, fails: with `2 x 2` patches and strides 1 and 1 on an input of shape
`1 x (2^64 - 1) x 0` the row test `y + height <= H` holds for every `std::size_t` value of
`y` after wrapping, the column loop emits nothing, and `activate_hidden` runs out of every
fuel: the call does not terminate although both strides are positive. -/
theorem activate_hidden_endless :
    0 < sample.unit_stride_layer.v_stride ∧ 0 < sample.unit_stride_layer.h_stride
    ∧ sample.tall_empty_input.dim0 = 1
    ∧ (∀ y, size_add y sample.unit_stride_layer.height ≤ sample.tall_empty_input.dim1)
    ∧ ∀ fuel, sample.unit_stride_layer.activate_hidden fuel [] sample.tall_empty_input
        = .error .out_of_fuel := by
  have hg : ∀ y, size_add y sample.unit_stride_layer.height ≤ sample.tall_empty_input.dim1 := by
    intro y
    have h := size_add_lt y sample.unit_stride_layer.height
    have e : SIZE_MOD = 18446744073709551615 + 1 := by decide
    rw [e] at h
    exact Nat.lt_succ_iff.mp h
  refine ⟨by decide, by decide, rfl, hg, ?_⟩
  intro fuel
  unfold dyn_patches_layer.activate_hidden
  have hc : sample.tall_empty_input.dim0 = 1 := rfl
  rw [if_pos hc]
  exact dyn_patches_layer.row_loop_endless _ _ fuel hg (by decide) fuel 0 _

/-- C28 amended: for a patch size of `size_t` values with `H + v_stride < 2^64` and
`W + h_stride < 2^64` (no loop counter wraps), `activate_hidden` terminates when both strides
are positive (any fuel of at least `H + W + 2` is enough: it never runs out, and returns the
patches when the input has one channel); with `v_stride = 0` or `h_stride = 0` and a one-channel
input at least as large as the patch it runs out of every fuel, that is, the loop never
terminates. -/
theorem activate_hidden_termination {α : Type} [Inhabited α] (l : dyn_patches_layer)
    (h_a : List (dyn_matrix3 α)) (input : dyn_matrix3 α)
    (m1 : input.dim1 + l.v_stride < SIZE_MOD) (m2 : input.dim2 + l.h_stride < SIZE_MOD)
    (mh : l.height < SIZE_MOD) (mw : l.width < SIZE_MOD) :
    (0 < l.v_stride → 0 < l.h_stride → ∀ fuel, input.dim1 + input.dim2 + 2 ≤ fuel →
        l.activate_hidden fuel h_a input ≠ .error .out_of_fuel
        ∧ (input.dim0 = 1 → ∃ out, l.activate_hidden fuel h_a input = .ok out))
    ∧ ((l.v_stride = 0 ∨ l.h_stride = 0) → input.dim0 = 1 → l.height ≤ input.dim1 →
        l.width ≤ input.dim2 → ∀ fuel, l.activate_hidden fuel h_a input = .error .out_of_fuel)
    := by
  constructor
  · intro hv hh fuel hfuel
    by_cases hc : input.dim0 = 1
    · have e := dyn_patches_layer.activate_hidden_eq l fuel h_a input hv hh hc m1 m2 mh mw hfuel
      refine ⟨?_, fun _ => ⟨_, e⟩⟩
      rw [e]
      intro h
      cases h
    · refine ⟨?_, fun h => absurd h hc⟩
      unfold dyn_patches_layer.activate_hidden
      rw [if_neg hc]
      intro h
      cases h
  · intro hs hc hH hW fuel
    unfold dyn_patches_layer.activate_hidden
    rw [if_pos hc]
    rcases hs with hs | hs
    · exact dyn_patches_layer.row_loop_stuck l input fuel 0 hs (by omega) (by omega) (by omega)
        m2 mw fuel _
    · exact dyn_patches_layer.row_loop_col_stuck l input fuel 0 hs (by omega) (by omega) hW
        (by omega) (by omega) fuel _

/-- Witness of the amended C28: the sample layer terminates on the sample image; the layer with
`v_stride = 0` runs out of fuel 1000 on the `1 x 2 x 2` image. -/
theorem activate_hidden_termination_witness :
    (∃ out, sample.patch_layer.activate_hidden 10 [] sample.image = .ok out)
    ∧ sample.stuck_layer.activate_hidden 1000 [] sample.small_image = .error .out_of_fuel :=
  ⟨((activate_hidden_termination sample.patch_layer [] sample.image (by decide) (by decide)
      (by decide) (by decide)).1 (by decide) (by decide) 10 (by decide)).2 rfl,
    (activate_hidden_termination sample.stuck_layer [] sample.small_image (by decide)
      (by decide) (by decide) (by decide)).2 (Or.inl rfl) rfl (by decide) (by decide) 1000⟩

/-- C29, as stated, fails when a loop counter wraps: after `init_layer(2, 2, 2^64 - 1, 1)` on a
`1 x 2 x 2` input (`H = height`, `W = width`, positive strides) the call does not stop after
the one patch equal to the input: the row counter wraps to `2^64 - 1`, passes the loop test,
and the next patch is read outside the input. -/
theorem activate_hidden_small_inputs_wraps :
    0 < sample.wrap_layer.v_stride ∧ 0 < sample.wrap_layer.h_stride
    ∧ sample.small_image.dim0 = 1
    ∧ sample.small_image.dim1 = sample.wrap_layer.height
    ∧ sample.small_image.dim2 = sample.wrap_layer.width
    ∧ sample.wrap_layer.activate_hidden 10 [] sample.small_image = .error .out_of_bounds
    ∧ ∀ fuel, ¬ ∃ p, sample.wrap_layer.activate_hidden fuel [] sample.small_image
        = .ok [p] := by
  refine ⟨by decide, by decide, rfl, rfl, rfl, wrap_layer_run 8, ?_⟩
  rintro fuel ⟨p, h⟩
  exact wrap_layer_no_result fuel [p] h

/-- C29 amended: with positive strides, `H + v_stride < 2^64` and `W + h_stride < 2^64` (no
loop counter wraps), a patch size of `size_t` values and a one-channel input, `activate_hidden`
leaves the output empty when the input is smaller than the patch in a spatial dimension, and
when `H = height` and `W = width` it emits exactly one patch, of the shape of the input and
with the elements of the input. -/
theorem activate_hidden_small_inputs {α : Type} [Inhabited α] (l : dyn_patches_layer)
    (fuel : Nat) (h_a : List (dyn_matrix3 α)) (input : dyn_matrix3 α)
    (hv : 0 < l.v_stride) (hh : 0 < l.h_stride) (hc : input.dim0 = 1)
    (m1 : input.dim1 + l.v_stride < SIZE_MOD) (m2 : input.dim2 + l.h_stride < SIZE_MOD)
    (mh : l.height < SIZE_MOD) (mw : l.width < SIZE_MOD)
    (hfuel : input.dim1 + input.dim2 + 2 ≤ fuel) :
    ((input.dim1 < l.height ∨ input.dim2 < l.width) →
        l.activate_hidden fuel h_a input = .ok [])
    ∧ (input.dim1 = l.height → input.dim2 = l.width →
        ∃ p, l.activate_hidden fuel h_a input = .ok [p]
          ∧ p.dim0 = input.dim0 ∧ p.dim1 = input.dim1 ∧ p.dim2 = input.dim2
          ∧ ∀ yy xx, yy < input.dim1 → xx < input.dim2 →
              p.val 0 yy xx = input.val 0 yy xx) := by
  have e := dyn_patches_layer.activate_hidden_eq l fuel h_a input hv hh hc m1 m2 mh mw hfuel
  constructor
  · intro hsmall
    rw [e]
    have hlen := dyn_patches_layer.patches_length l input
    have hzero : dyn_patches_layer.positions input.dim1 l.height l.v_stride
        * dyn_patches_layer.positions input.dim2 l.width l.h_stride = 0 := by
      rcases hsmall with h | h
      · have : dyn_patches_layer.positions input.dim1 l.height l.v_stride = 0 := by
          unfold dyn_patches_layer.positions dyn_patches_layer.positions_from
          rw [if_neg (by omega)]
        rw [this, Nat.zero_mul]
      · have : dyn_patches_layer.positions input.dim2 l.width l.h_stride = 0 := by
          unfold dyn_patches_layer.positions dyn_patches_layer.positions_from
          rw [if_neg (by omega)]
        rw [this, Nat.mul_zero]
    rw [hzero] at hlen
    rw [List.length_eq_zero.mp hlen]
  · intro hH hW
    have p1 : dyn_patches_layer.positions input.dim1 l.height l.v_stride = 1 := by
      rw [dyn_patches_layer.positions_of_le (by omega), hH, Nat.sub_self, Nat.zero_div]
    have p2 : dyn_patches_layer.positions input.dim2 l.width l.h_stride = 1 := by
      rw [dyn_patches_layer.positions_of_le (by omega), hW, Nat.sub_self, Nat.zero_div]
    have hp : dyn_patches_layer.patches l input = [dyn_patches_layer.window l input 0 0] := by
      unfold dyn_patches_layer.patches
      rw [p1, p2]
      show (List.range 1).flatMap (fun r => (List.range 1).map fun c =>
        dyn_patches_layer.window l input (r * l.v_stride) (c * l.h_stride)) = _
      rw [show List.range 1 = [0] from rfl, List.flatMap_singleton, List.map_singleton,
        Nat.zero_mul, Nat.zero_mul]
    obtain ⟨d0, d1, d2⟩ := dyn_patches_layer.window_dims l input 0 0
    refine ⟨_, by rw [e, hp], by rw [d0, hc], by rw [d1, hH], by rw [d2, hW], ?_⟩
    intro yy xx hy hx
    have := dyn_patches_layer.window_val l input 0 0 yy xx (by omega) (by omega)
    rw [this, Nat.zero_add, Nat.zero_add]

/-- Witness of the amended C29: patches of height 4 on the `1 x 3 x 5` image give no patch;
`2 x 2` patches on the `1 x 2 x 2` image give one. -/
theorem activate_hidden_small_inputs_witness :
    sample.tall_layer.activate_hidden 10 [] sample.image = .ok []
    ∧ ∃ p, sample.patch_layer.activate_hidden 10 [] sample.small_image = .ok [p]
        ∧ p.dim0 = 1 ∧ p.dim1 = 2 ∧ p.dim2 = 2
        ∧ ∀ yy xx, yy < 2 → xx < 2 → p.val 0 yy xx = sample.small_image.val 0 yy xx :=
  ⟨(activate_hidden_small_inputs sample.tall_layer 10 [] sample.image (by decide) (by decide)
      rfl (by decide) (by decide) (by decide) (by decide) (by decide)).1 (Or.inl (by decide)),
    (activate_hidden_small_inputs sample.patch_layer 10 [] sample.small_image (by decide)
      (by decide) rfl (by decide) (by decide) (by decide) (by decide) (by decide)).2 rfl rfl⟩

/-! ## Claim on the base trait records -/

/-- C30: the base trait records of the seven layer kinds of the sources satisfy: `is_rbm` and
`is_standard` are not both true; at most one of `is_dense`, `is_conv`, `is_deconv` is true and
exactly one when `is_neural`; `is_neural` is false for pooling, unpooling, transform and
patches layers; `is_multiplex_layer` implies not `is_trained`; `is_pretrained` implies
`is_trained`. -/
theorem base_traits_invariants (hu : unit_type) :
    ∀ t ∈ [deconv_layer.base_traits, dyn_dense_layer.base_traits, dyn_conv_rbm.base_traits hu,
        avgp_layer_3d.base_traits, dyn_upsample_layer_3d.base_traits,
        rectifier_layer.base_traits, dyn_patches_layer.base_traits],
      ¬ (t.is_rbm = true ∧ t.is_standard = true)
      ∧ ¬ (t.is_dense = true ∧ t.is_conv = true)
      ∧ ¬ (t.is_dense = true ∧ t.is_deconv = true)
      ∧ ¬ (t.is_conv = true ∧ t.is_deconv = true)
      ∧ (t.is_neural = true → (t.is_dense = true ∨ t.is_conv = true ∨ t.is_deconv = true))
      ∧ ((t.is_pooling = true ∨ t.is_unpooling = true ∨ t.is_transform = true
            ∨ t.is_patches = true) → t.is_neural = false)
      ∧ (layer_traits.is_multiplex_layer t = true → layer_traits.is_trained t = false)
      ∧ (layer_traits.is_pretrained t = true → layer_traits.is_trained t = true) := by
  intro t ht
  simp only [List.mem_cons, List.mem_singleton, List.not_mem_nil, or_false] at ht
  rcases ht with rfl | rfl | rfl | rfl | rfl | rfl | rfl <;>
    simp [deconv_layer.base_traits, dyn_dense_layer.base_traits, dyn_conv_rbm.base_traits,
      avgp_layer_3d.base_traits, dyn_upsample_layer_3d.base_traits,
      rectifier_layer.base_traits, dyn_patches_layer.base_traits,
      layer_traits.is_multiplex_layer, layer_traits.is_trained, layer_traits.is_pretrained,
      layer_traits.is_augment_layer, layer_traits.is_patches_layer,
      layer_traits.is_neural_layer, layer_traits.is_rbm_layer]

/-- Witness of C30: the record of `dyn_conv_rbm` with BINARY hidden units is pretrained and
trained, and is neural with exactly the `is_conv` flag. -/
theorem base_traits_invariants_witness :
    layer_traits.is_pretrained (dyn_conv_rbm.base_traits unit_type.BINARY) = true
    ∧ layer_traits.is_trained (dyn_conv_rbm.base_traits unit_type.BINARY) = true :=
  ⟨rfl, (base_traits_invariants unit_type.BINARY (dyn_conv_rbm.base_traits unit_type.BINARY)
    (by simp)).2.2.2.2.2.2.2 rfl⟩

end dll
